import Mathlib

/-!
Verification of the instance-scheduler repository.

This file gives a shallow embedding, in Lean 4, of the parts of the
repository that the specification talks about:

* `configuration/setbuilders/weekday_setbuilder.py` — weekday occurrence
  (`name#n`) and last-occurrence (`nameL`) expressions;
* `schedulers/ec2_service.py` — maintenance-window schedule synthesis,
  instance batching, the start/stop orchestration, instance discovery and
  the per-run maintenance-window cache;
* `requesthandlers/schedule_resource_handler.py` — schedule creation and
  clean-up of the numbered periods it creates.

Pure Python functions become Lean functions; iteration with mutable local
state becomes explicit state passing; Python exceptions become `Except` /
`Option` results; machine-level details (AWS clients, loggers) become
explicit oracle parameters whose calls are recorded in the results.
-/

set_option autoImplicit false

namespace InstanceScheduler

/-! ## Calendar helpers

Semantics of the parts of Python's `calendar` module the source uses:
`calendar.monthrange(year, month)` returns the weekday (Monday = 0) of the
first day of the month and the number of days in the month. The weekday is
computed with Sakamoto's algorithm (valid for years ≥ 1, which is the
domain of Python's `calendar`). -/

def isLeapYear (y : Int) : Bool :=
  y % 4 == 0 && (y % 100 != 0 || y % 400 == 0)

def daysInMonth (y : Int) (m : Nat) : Nat :=
  if m = 2 then (if isLeapYear y then 29 else 28)
  else if m = 4 ∨ m = 6 ∨ m = 9 ∨ m = 11 then 30
  else 31

/-- Weekday of a date with Monday = 0 … Sunday = 6, matching Python's
`datetime.date(y, m, d).weekday()` (Sakamoto's method, shifted from its
native Sunday = 0 convention). -/
def pyWeekday (y : Int) (m d : Nat) : Nat :=
  let t : List Nat := [0, 3, 2, 5, 0, 3, 5, 1, 4, 6, 2, 4]
  let y' : Int := if m < 3 then y - 1 else y
  let s : Int := y' + y' / 4 - y' / 100 + y' / 400 + (t.getD (m - 1) 0 : Nat) + (d : Nat)
  ((s + 6) % 7).toNat

/-- `calendar.monthrange(year, month)`: (weekday of day 1, days in month). -/
def monthrange (y : Int) (m : Nat) : Nat × Nat :=
  (pyWeekday y m 1, daysInMonth y m)

/-! ## Python string primitives

Models of the `str` methods used by the source, written over `List Char`
so that concrete instances evaluate inside the kernel. -/

def pySplitAux (sep : Char) : List Char → List Char → List (List Char)
  | acc, [] => [acc.reverse]
  | acc, c :: cs =>
    if c = sep then acc.reverse :: pySplitAux sep [] cs
    else pySplitAux sep (c :: acc) cs

/-- Python `s.split(sep)` for a one-character separator. -/
def pySplit (sep : Char) (s : String) : List String :=
  (pySplitAux sep [] s.toList).map String.mk

/-- Python `s.endswith(c)` for a one-character suffix. -/
def pyEndsWith (c : Char) (s : String) : Bool :=
  match s.toList.getLast? with
  | some c' => c' = c
  | none => false

/-- Python `s[:-1]`. -/
def pyDropLast (s : String) : String :=
  String.mk s.toList.dropLast

/-- Python `s.strip()` (space characters suffice for the strings the source
produces). -/
def pyStrip (s : String) : String :=
  String.mk (((s.toList.dropWhile (· = ' ')).reverse.dropWhile (· = ' ')).reverse)

def digitVal? (c : Char) : Option Nat :=
  if c.isDigit then some (c.toNat - 48) else none

def parseDigitsAux : Nat → List Char → Option Nat
  | acc, [] => some acc
  | acc, c :: cs =>
    match digitVal? c with
    | some d => parseDigitsAux (10 * acc + d) cs
    | none => none

def parseDigits : List Char → Option Nat
  | [] => none
  | cs => parseDigitsAux 0 cs

/-- Python `int(s)` restricted to the optionally-signed decimal forms the
source can meet; `none` models the `ValueError` raised on anything else. -/
def pyInt? (s : String) : Option Int :=
  match s.toList with
  | '-' :: cs => (parseDigits cs).map (fun n => -(n : Int))
  | cs => (parseDigits cs).map (fun n => (n : Int))

/-! ## WeekdaySetBuilder (`configuration/setbuilders/weekday_setbuilder.py`)

The builder is created with optional `year`, `month`, `day` context. The
`#`/`L` parsers are decorated with `_requires_date_attributes`, which
raises when any of the three is missing and otherwise computes
`calendar.monthrange(year, month)` once. Name/value resolution
(`_get_value_by_name` / `_get_value_by_str`) lives in the missing base
class `SetBuilder` and is kept abstract as a function
`fn : String → Option Nat`. -/

structure WeekdaySetBuilder where
  year : Option Int
  month : Option Nat
  day : Option Nat
deriving DecidableEq

/-- `_requires_date_attributes`: fails when year, month or day is missing;
otherwise supplies `(day, first weekday of month, days in month)` to the
wrapped parser. -/
def requires_date_attributes (b : WeekdaySetBuilder) :
    Except String (Nat × Nat × Nat) :=
  match b.year, b.month, b.day with
  | some y, some m, some d => .ok (d, (monthrange y m).1, (monthrange y m).2)
  | _, _, _ =>
    .error "year, month and day parameters must be specified when creating the WeekdaySetBuilder"

/-- `_get_day_for_first_occurrence_month`: day of the first occurrence of
`weekday` in the month whose first day falls on `first_weekday_in_month`. -/
def get_day_for_first_occurrence_month (first_weekday_in_month weekday : Nat) : Nat :=
  if weekday ≠ first_weekday_in_month then
    (1 + ((weekday : Int) - (first_weekday_in_month : Int)) % 7).toNat
  else 1

/-- Body of `_get_occurrence_item` once the occurrence `number` has been
parsed from the text after '#'. -/
def occurrence_of_number (day first_weekday_in_month : Nat)
    (fn : String → Option Nat) (t nstr : String) (number : Int) :
    Except String (Option (List Nat)) :=
  if number < 1 ∨ number > 5 then
    .error ("Number value must be in range 1-5 (" ++ nstr ++ ")")
  else
    match fn t with
    | none => .ok none
    | some weekday =>
      let day_for_number_weekday := get_day_for_first_occurrence_month first_weekday_in_month weekday
      let monthday := day_for_number_weekday + (number.toNat - 1) * 7
      .ok (some (if day = monthday then [weekday] else []))

/-- Body of `_get_occurrence_item` once `number_str` has been split at '#'
into exactly two parts `t` and `nstr`. -/
def occurrence_of_parts (day first_weekday_in_month : Nat)
    (fn : String → Option Nat) (t nstr : String) :
    Except String (Option (List Nat)) :=
  match pyInt? nstr with
  | none => .error ("Number value must be an integer value (" ++ nstr ++ ")")
  | some number => occurrence_of_number day first_weekday_in_month fn t nstr number

/-- `_get_occurrence_item`: handles `token#n`. The weekday token is resolved
by `fn`; an unresolved token or a missing `#` yields `.ok none` (the parser
does not handle the expression), a malformed or out-of-range occurrence
number is an error. -/
def get_occurrence_item (day first_weekday_in_month : Nat)
    (fn : String → Option Nat) (number_str : String) :
    Except String (Option (List Nat)) :=
  match pySplit '#' number_str with
  | [t, nstr] => occurrence_of_parts day first_weekday_in_month fn t nstr
  | _ => .ok none

/-- The `while day + 7 <= days_in_month` loop of
`_get_last_day_for_weekday_in_month`. -/
def advance_by_7 (day days_in_month : Nat) : Nat :=
  if day + 7 ≤ days_in_month then advance_by_7 (day + 7) days_in_month else day
termination_by days_in_month - day
decreasing_by omega

/-- `_get_last_day_for_weekday_in_month`: handles `tokenL`. -/
def get_last_day_for_weekday_in_month (day first_weekday_in_month days_in_month : Nat)
    (fn : String → Option Nat) (last_weekday_str : String) :
    Except String (Option (List Nat)) :=
  if pyEndsWith 'L' last_weekday_str then
    match fn (pyDropLast last_weekday_str) with
    | some weekday =>
      let day_for_number_weekday := get_day_for_first_occurrence_month first_weekday_in_month weekday
      let last := advance_by_7 day_for_number_weekday days_in_month
      .ok (some (if last = day then [weekday] else []))
    | none => .ok none
  else .ok none

/-- `_parse_name_number` (`name#n`); `fn` stands for `_get_value_by_name`. -/
def parse_name_number (b : WeekdaySetBuilder) (fn : String → Option Nat)
    (s : String) : Except String (Option (List Nat)) :=
  match requires_date_attributes b with
  | .error e => .error e
  | .ok (d, fwd, _) => get_occurrence_item d fwd fn s

/-- `_parse_value_number` (`value#n`); `fn` stands for `_get_value_by_str`. -/
def parse_value_number (b : WeekdaySetBuilder) (fn : String → Option Nat)
    (s : String) : Except String (Option (List Nat)) :=
  match requires_date_attributes b with
  | .error e => .error e
  | .ok (d, fwd, _) => get_occurrence_item d fwd fn s

/-- `_parse_name_last_weekday` (`nameL`). -/
def parse_name_last_weekday (b : WeekdaySetBuilder) (fn : String → Option Nat)
    (s : String) : Except String (Option (List Nat)) :=
  match requires_date_attributes b with
  | .error e => .error e
  | .ok (d, fwd, dim) => get_last_day_for_weekday_in_month d fwd dim fn s

/-- `_parse_value_last_weekday` (`valueL`). -/
def parse_value_last_weekday (b : WeekdaySetBuilder) (fn : String → Option Nat)
    (s : String) : Except String (Option (List Nat)) :=
  match requires_date_attributes b with
  | .error e => .error e
  | .ok (d, fwd, dim) => get_last_day_for_weekday_in_month d fwd dim fn s

def isErr {ε α : Type} : Except ε α → Bool
  | .error _ => true
  | .ok _ => false

/-! ## Theorems about the weekday set builder -/

lemma get_day_for_first_occurrence_month_cast (f w : Nat) :
    (get_day_for_first_occurrence_month f w : Int) = 1 + ((w : Int) - (f : Int)) % 7 := by
  unfold get_day_for_first_occurrence_month
  by_cases h : w = f
  · subst h
    simp
  · rw [if_pos h]
    have h0 : (0 : Int) ≤ ((w : Int) - (f : Int)) % 7 := Int.emod_nonneg _ (by omega)
    omega

lemma parse_name_number_some (y : Int) (m d : Nat) (fn : String → Option Nat) (s : String) :
    parse_name_number ⟨some y, some m, some d⟩ fn s =
      get_occurrence_item d (monthrange y m).1 fn s := rfl

lemma parse_value_number_some (y : Int) (m d : Nat) (fn : String → Option Nat) (s : String) :
    parse_value_number ⟨some y, some m, some d⟩ fn s =
      get_occurrence_item d (monthrange y m).1 fn s := rfl

lemma parse_name_last_weekday_some (y : Int) (m d : Nat) (fn : String → Option Nat) (s : String) :
    parse_name_last_weekday ⟨some y, some m, some d⟩ fn s =
      get_last_day_for_weekday_in_month d (monthrange y m).1 (monthrange y m).2 fn s := rfl

lemma parse_value_last_weekday_some (y : Int) (m d : Nat) (fn : String → Option Nat) (s : String) :
    parse_value_last_weekday ⟨some y, some m, some d⟩ fn s =
      get_last_day_for_weekday_in_month d (monthrange y m).1 (monthrange y m).2 fn s := rfl

lemma get_occurrence_item_eval (d f : Nat) (fn : String → Option Nat)
    (s t nstr : String) (w : Nat) (n : Int)
    (hs : pySplit '#' s = [t, nstr]) (hn : pyInt? nstr = some n)
    (h1 : 1 ≤ n) (h5 : n ≤ 5) (hf : fn t = some w) :
    get_occurrence_item d f fn s =
      .ok (some (if (d : Int) = 1 + ((w : Int) - (f : Int)) % 7 + (n - 1) * 7
                 then [w] else [])) := by
  unfold get_occurrence_item
  rw [hs]
  show occurrence_of_parts d f fn t nstr = _
  unfold occurrence_of_parts
  rw [hn]
  show occurrence_of_number d f fn t nstr n = _
  unfold occurrence_of_number
  rw [if_neg (by omega), hf]
  show Except.ok (some (if d = get_day_for_first_occurrence_month f w + (n.toNat - 1) * 7
    then [w] else [])) = _
  have hg := get_day_for_first_occurrence_month_cast f w
  congr 2
  refine if_congr ?_ rfl rfl
  omega

/-- C2: a weekday expression `token#n` with a full date context evaluates to
the singleton `[w]` exactly when the evaluated day equals
`1 + ((w − firstWeekdayOfMonth) mod 7) + (n − 1) * 7`, and to the empty set
otherwise; this holds for both the name form (`_parse_name_number`) and the
value form (`_parse_value_number`). -/
theorem weekday_nth_occurrence_eval
    (y : Int) (m d : Nat) (fn : String → Option Nat) (s t nstr : String) (w : Nat) (n : Int)
    (hs : pySplit '#' s = [t, nstr]) (hn : pyInt? nstr = some n)
    (h1 : 1 ≤ n) (h5 : n ≤ 5) (hf : fn t = some w) :
    parse_name_number ⟨some y, some m, some d⟩ fn s =
      .ok (some (if (d : Int) = 1 + ((w : Int) - ((monthrange y m).1 : Int)) % 7 + (n - 1) * 7
                 then [w] else [])) ∧
    parse_value_number ⟨some y, some m, some d⟩ fn s =
      .ok (some (if (d : Int) = 1 + ((w : Int) - ((monthrange y m).1 : Int)) % 7 + (n - 1) * 7
                 then [w] else [])) := by
  have h := get_occurrence_item_eval d (monthrange y m).1 fn s t nstr w n hs hn h1 h5 hf
  rw [parse_name_number_some, parse_value_number_some]
  exact ⟨h, h⟩

/-- Witness for C2: in March 2021 (first weekday Monday = 0), `mon#2`
evaluated at day 8 returns the singleton set {Monday}. -/
theorem weekday_nth_occurrence_eval_witness :
    parse_name_number ⟨some 2021, some 3, some 8⟩
      (fun t => if t = "mon" then some 0 else none) "mon#2" = .ok (some [0]) := by
  have h := (weekday_nth_occurrence_eval 2021 3 8
    (fun t => if t = "mon" then some 0 else none) "mon#2" "mon" "2" 0 2
    (by decide) (by decide) (by decide) (by decide) (by decide)).1
  rw [h]
  have hm : (monthrange 2021 3).1 = 0 := by decide
  rw [hm]
  norm_num

lemma advance_by_7_spec (d dim : Nat) (h : d ≤ dim) :
    advance_by_7 d dim ≤ dim ∧ dim < advance_by_7 d dim + 7 ∧
      advance_by_7 d dim % 7 = d % 7 := by
  by_cases h7 : d + 7 ≤ dim
  · have ih := advance_by_7_spec (d + 7) dim h7
    rw [advance_by_7, if_pos h7]
    omega
  · rw [advance_by_7, if_neg h7]
    omega
termination_by dim - d
decreasing_by omega

lemma get_last_day_eval (d f dim : Nat) (fn : String → Option Nat) (s : String) (w : Nat)
    (hL : pyEndsWith 'L' s = true) (hf : fn (pyDropLast s) = some w) :
    get_last_day_for_weekday_in_month d f dim fn s =
      .ok (some (if advance_by_7 (get_day_for_first_occurrence_month f w) dim = d
                 then [w] else [])) := by
  unfold get_last_day_for_weekday_in_month
  rw [hL, hf]
  rfl

/-- C3: a weekday expression `tokenL` with a full date context evaluates to
the singleton `[w]` exactly when the evaluated day is the day computed by
taking the weekday's first occurrence in the month and advancing it by 7
while the result stays within the month (`advance_by_7`), and to the empty
set otherwise — for both the name and the value form. The last conjunct
shows `advance_by_7 d0 dim` is indeed the last occurrence: it stays in the
month, advancing once more would leave it, and it is the same weekday. -/
theorem weekday_last_occurrence_eval
    (y : Int) (m d : Nat) (fn : String → Option Nat) (s : String) (w : Nat)
    (hL : pyEndsWith 'L' s = true) (hf : fn (pyDropLast s) = some w) :
    (parse_name_last_weekday ⟨some y, some m, some d⟩ fn s =
      .ok (some (if advance_by_7 (get_day_for_first_occurrence_month (monthrange y m).1 w)
                      (monthrange y m).2 = d
                 then [w] else []))) ∧
    (parse_value_last_weekday ⟨some y, some m, some d⟩ fn s =
      .ok (some (if advance_by_7 (get_day_for_first_occurrence_month (monthrange y m).1 w)
                      (monthrange y m).2 = d
                 then [w] else []))) ∧
    (∀ d0 dim : Nat, d0 ≤ dim →
      advance_by_7 d0 dim ≤ dim ∧ dim < advance_by_7 d0 dim + 7 ∧
        advance_by_7 d0 dim % 7 = d0 % 7) := by
  refine ⟨?_, ?_, fun d0 dim h => advance_by_7_spec d0 dim h⟩
  · rw [parse_name_last_weekday_some]
    exact get_last_day_eval _ _ _ fn s w hL hf
  · rw [parse_value_last_weekday_some]
    exact get_last_day_eval _ _ _ fn s w hL hf

/-- Witness for C3: July 2021 is a 31-day month starting on a Thursday;
`friL` evaluated at day 30 (the last Friday) returns {Friday}. -/
theorem weekday_last_occurrence_eval_witness :
    parse_name_last_weekday ⟨some 2021, some 7, some 30⟩
      (fun t => if t = "fri" then some 4 else none) "friL" = .ok (some [4]) := by
  have h := (weekday_last_occurrence_eval 2021 7 30
    (fun t => if t = "fri" then some 4 else none) "friL" 4 (by decide) (by decide)).1
  rw [h]
  have hadv : advance_by_7 (get_day_for_first_occurrence_month (monthrange 2021 7).1 4)
      (monthrange 2021 7).2 = 30 := by
    rw [show get_day_for_first_occurrence_month (monthrange 2021 7).1 4 = 2 by decide,
      show (monthrange 2021 7).2 = 31 by decide]
    simp [advance_by_7]
  rw [hadv]
  norm_num

lemma get_occurrence_item_err (d f : Nat) (fn : String → Option Nat) (s : String) :
    isErr (get_occurrence_item d f fn s) = true ↔
      ∃ t nstr, pySplit '#' s = [t, nstr] ∧
        (pyInt? nstr = none ∨ ∃ n : Int, pyInt? nstr = some n ∧ (n < 1 ∨ 5 < n)) := by
  unfold get_occurrence_item
  cases hsp : pySplit '#' s with
  | nil =>
    refine iff_of_false (fun h => Bool.noConfusion h) ?_
    rintro ⟨t, nstr, heq, -⟩
    exact List.noConfusion heq
  | cons t rest =>
    cases rest with
    | nil =>
      refine iff_of_false (fun h => Bool.noConfusion h) ?_
      rintro ⟨t', nstr', heq, -⟩
      injection heq with h1 h2
      exact List.noConfusion h2
    | cons nstr rest2 =>
      cases rest2 with
      | cons x xs =>
        refine iff_of_false (fun h => Bool.noConfusion h) ?_
        rintro ⟨t', nstr', heq, -⟩
        injection heq with h1 h2
        injection h2 with h3 h4
        exact List.noConfusion h4
      | nil =>
        show isErr (occurrence_of_parts d f fn t nstr) = true ↔ _
        unfold occurrence_of_parts
        cases hni : pyInt? nstr with
        | none => exact iff_of_true rfl ⟨t, nstr, rfl, Or.inl hni⟩
        | some n =>
          show isErr (occurrence_of_number d f fn t nstr n) = true ↔ _
          unfold occurrence_of_number
          by_cases hr : n < 1 ∨ n > 5
          · rw [if_pos hr]
            exact iff_of_true rfl ⟨t, nstr, rfl, Or.inr ⟨n, hni, hr⟩⟩
          · rw [if_neg hr]
            refine iff_of_false ?_ ?_
            · cases hfn : fn t <;> exact fun h => Bool.noConfusion h
            · rintro ⟨t', nstr', heq, hbad⟩
              injection heq with h1 h2
              injection h2 with h3 h4
              subst h1
              subst h3
              rcases hbad with h | ⟨n', hn', hr'⟩
              · rw [hni] at h
                exact Option.noConfusion h
              · rw [hni] at hn'
                injection hn' with h5
                subst h5
                exact hr hr'

lemma get_last_day_not_err (d f dim : Nat) (fn : String → Option Nat) (s : String) :
    isErr (get_last_day_for_weekday_in_month d f dim fn s) = false := by
  unfold get_last_day_for_weekday_in_month
  by_cases hL : pyEndsWith 'L' s
  · rw [if_pos hL]
    cases fn (pyDropLast s) <;> rfl
  · rw [if_neg hL]
    rfl

lemma missing_context_iff (b : WeekdaySetBuilder) :
    (∀ e, requires_date_attributes b ≠ .error e) ↔
      ¬(b.year = none ∨ b.month = none ∨ b.day = none) := by
  obtain ⟨oy, om, od⟩ := b
  cases oy <;> cases om <;> cases od <;> simp [requires_date_attributes]

/-- C4: building a weekday occurrence expression fails exactly when the
occurrence number after '#' is not an integer, the occurrence number is
outside 1–5, or — for all four `#`/`L` parsers — the builder was created
without year, month or day. The `L` parsers have no occurrence number, so
they fail exactly when the date context is missing. A parser that does not
fail returns `.ok`, never an error disguised as an empty set. -/
theorem weekday_occurrence_error_cases
    (b : WeekdaySetBuilder) (fn : String → Option Nat) (s : String) :
    (isErr (parse_name_number b fn s) = true ↔
      ((b.year = none ∨ b.month = none ∨ b.day = none) ∨
        ∃ t nstr, pySplit '#' s = [t, nstr] ∧
          (pyInt? nstr = none ∨ ∃ n : Int, pyInt? nstr = some n ∧ (n < 1 ∨ 5 < n)))) ∧
    (isErr (parse_value_number b fn s) = true ↔
      ((b.year = none ∨ b.month = none ∨ b.day = none) ∨
        ∃ t nstr, pySplit '#' s = [t, nstr] ∧
          (pyInt? nstr = none ∨ ∃ n : Int, pyInt? nstr = some n ∧ (n < 1 ∨ 5 < n)))) ∧
    (isErr (parse_name_last_weekday b fn s) = true ↔
      (b.year = none ∨ b.month = none ∨ b.day = none)) ∧
    (isErr (parse_value_last_weekday b fn s) = true ↔
      (b.year = none ∨ b.month = none ∨ b.day = none)) := by
  obtain ⟨oy, om, od⟩ := b
  cases oy with
  | none =>
    cases om <;> cases od <;>
      simp [parse_name_number, parse_value_number, parse_name_last_weekday,
        parse_value_last_weekday, requires_date_attributes, isErr]
  | some y =>
    cases om with
    | none =>
      cases od <;>
        simp [parse_name_number, parse_value_number, parse_name_last_weekday,
          parse_value_last_weekday, requires_date_attributes, isErr]
    | some m =>
      cases od with
      | none =>
        simp [parse_name_number, parse_value_number, parse_name_last_weekday,
          parse_value_last_weekday, requires_date_attributes, isErr]
      | some d =>
        refine ⟨?_, ?_, ?_, ?_⟩
        · rw [parse_name_number_some, get_occurrence_item_err]
          simp
        · rw [parse_value_number_some, get_occurrence_item_err]
          simp
        · rw [parse_name_last_weekday_some]
          simp [get_last_day_not_err]
        · rw [parse_value_last_weekday_some]
          simp [get_last_day_not_err]

/-! ## Ec2Service (`schedulers/ec2_service.py`): states and batching -/

def EC2_STATE_PENDING : Nat := 0
def EC2_STATE_RUNNING : Nat := 16
def EC2_STATE_SHUTTING_DOWN : Nat := 32
def EC2_STATE_TERMINATED : Nat := 48
def EC2_STATE_STOPPING : Nat := 64
def EC2_STATE_STOPPED : Nat := 80

/-- `EC2_SCHEDULABLE_STATES = {running, stopped}` membership after the
`& 0xFF` mask applied by the source (for the non-negative state codes the
provider returns, `& 0xFF` is `% 256`). -/
def is_in_schedulable_state (state : Nat) : Bool :=
  (state % 256) == EC2_STATE_RUNNING || (state % 256) == EC2_STATE_STOPPED

/-- `EC2_STOPPING_STATES = {shutting-down, stopping, stopped}`. -/
def is_in_stopping_state (state : Nat) : Bool :=
  (state % 256) == EC2_STATE_SHUTTING_DOWN ||
    (state % 256) == EC2_STATE_STOPPING || (state % 256) == EC2_STATE_STOPPED

/-- `EC2_STARTING_STATES = {pending, running}`. -/
def is_in_starting_state (state : Nat) : Bool :=
  (state % 256) == EC2_STATE_PENDING || (state % 256) == EC2_STATE_RUNNING

/-- Modelled from the spec: the desired-state constants
`InstanceSchedule.STATE_RUNNING` / `STATE_STOPPED` of the missing
`configuration/instance_schedule.py`; the spec's desired states are
RUNNING and STOPPED. -/
def STATE_RUNNING : String := "running"

def STATE_STOPPED : String := "stopped"

/-- `Ec2Service.instance_batches`: the generator accumulates a buffer,
yields it when it reaches `size`, and yields the non-empty remainder at
the end. -/
def instance_batches_aux {α : Type} (size : Nat) : List α → List α → List (List α)
  | buf, [] => if buf.length > 0 then [buf] else []
  | buf, x :: xs =>
    if (buf ++ [x]).length = size then (buf ++ [x]) :: instance_batches_aux size [] xs
    else instance_batches_aux size (buf ++ [x]) xs

def instance_batches {α : Type} (instances : List α) (size : Nat) : List (List α) :=
  instance_batches_aux size [] instances

lemma instance_batches_aux_flatten {α : Type} (size : Nat) :
    ∀ (rest buf : List α), (instance_batches_aux size buf rest).flatten = buf ++ rest := by
  intro rest
  induction rest with
  | nil =>
    intro buf
    unfold instance_batches_aux
    by_cases h : buf.length > 0
    · rw [if_pos h]
      simp
    · rw [if_neg h]
      have : buf = [] := List.length_eq_zero.mp (by omega)
      simp [this]
  | cons x xs ih =>
    intro buf
    unfold instance_batches_aux
    by_cases h : (buf ++ [x]).length = size
    · rw [if_pos h]
      rw [List.flatten_cons, ih []]
      simp
    · rw [if_neg h, ih (buf ++ [x])]
      simp

lemma instance_batches_aux_dropLast {α : Type} (size : Nat) (hpos : 0 < size) :
    ∀ (rest buf : List α), buf.length < size →
      ∀ b ∈ (instance_batches_aux size buf rest).dropLast, b.length = size := by
  intro rest
  induction rest with
  | nil =>
    intro buf _ b hb
    unfold instance_batches_aux at hb
    by_cases h : buf.length > 0
    · rw [if_pos h] at hb
      simp at hb
    · rw [if_neg h] at hb
      simp at hb
  | cons x xs ih =>
    intro buf hlt b hb
    unfold instance_batches_aux at hb
    by_cases h : (buf ++ [x]).length = size
    · rw [if_pos h] at hb
      by_cases haux : instance_batches_aux size [] xs = []
      · rw [haux] at hb
        simp at hb
      · rw [List.dropLast_cons_of_ne_nil haux] at hb
        rcases List.mem_cons.mp hb with hb1 | hb2
        · subst hb1
          exact h
        · exact ih [] (by simpa using hpos) b hb2
    · rw [if_neg h] at hb
      refine ih (buf ++ [x]) ?_ b hb
      have hl : (buf ++ [x]).length = buf.length + 1 := by simp
      omega

lemma instance_batches_aux_eq_nil {α : Type} (size : Nat) :
    ∀ (rest buf : List α), instance_batches_aux size buf rest = [] → buf = [] ∧ rest = [] := by
  intro rest
  induction rest with
  | nil =>
    intro buf h
    unfold instance_batches_aux at h
    by_cases hb : buf.length > 0
    · rw [if_pos hb] at h
      exact List.noConfusion h
    · exact ⟨List.length_eq_zero.mp (by omega), rfl⟩
  | cons x xs ih =>
    intro buf h
    unfold instance_batches_aux at h
    by_cases hb : (buf ++ [x]).length = size
    · rw [if_pos hb] at h
      exact List.noConfusion h
    · rw [if_neg hb] at h
      have := (ih (buf ++ [x]) h).1
      simp at this

lemma getLast?_cons_ne_nil {α : Type} (a : α) (l : List α) (h : l ≠ []) :
    (a :: l).getLast? = l.getLast? := by
  cases l with
  | nil => exact absurd rfl h
  | cons b t => exact List.getLast?_cons_cons

lemma instance_batches_aux_getLast {α : Type} (size : Nat) (hpos : 0 < size) :
    ∀ (rest buf : List α), buf.length < size → buf.length + rest.length ≠ 0 →
      ∃ b, (instance_batches_aux size buf rest).getLast? = some b ∧
        b.length = (if (buf.length + rest.length) % size = 0 then size
                    else (buf.length + rest.length) % size) := by
  intro rest
  induction rest with
  | nil =>
    intro buf hlt hne
    simp only [List.length_nil, Nat.add_zero] at hne ⊢
    unfold instance_batches_aux
    rw [if_pos (by omega)]
    refine ⟨buf, List.getLast?_singleton buf, ?_⟩
    rw [Nat.mod_eq_of_lt hlt, if_neg hne]
  | cons x xs ih =>
    intro buf hlt hne
    unfold instance_batches_aux
    by_cases h : (buf ++ [x]).length = size
    · rw [if_pos h]
      by_cases hxs : xs = []
      · subst hxs
        have hnil : instance_batches_aux size ([] : List α) [] = [] := by
          unfold instance_batches_aux
          simp
        rw [hnil]
        refine ⟨buf ++ [x], List.getLast?_singleton _, ?_⟩
        have htot : buf.length + (x :: ([] : List α)).length = size := by
          simp only [List.length_cons, List.length_nil]
          simp only [List.length_append, List.length_cons, List.length_nil] at h
          omega
        rw [htot, Nat.mod_self, if_pos rfl]
        exact h
      · have hne2 : instance_batches_aux size ([] : List α) xs ≠ [] := fun hh =>
          hxs ((instance_batches_aux_eq_nil size xs [] hh).2)
        obtain ⟨b, hb, hlen⟩ := ih [] (by simpa using hpos)
          (by
            simp only [List.length_nil, Nat.zero_add]
            exact fun hh => hxs (List.length_eq_zero.mp hh))
        refine ⟨b, ?_, ?_⟩
        · rw [getLast?_cons_ne_nil _ _ hne2]
          exact hb
        · rw [hlen]
          have h0 : List.length ([] : List α) + xs.length = xs.length := by simp
          rw [h0]
          have htot : buf.length + (x :: xs).length = size + xs.length := by
            simp only [List.length_cons]
            simp only [List.length_append, List.length_cons, List.length_nil] at h
            omega
          rw [htot, Nat.add_mod_left]
    · rw [if_neg h]
      obtain ⟨b, hb, hlen⟩ := ih (buf ++ [x])
        (by
          simp only [List.length_append, List.length_cons, List.length_nil] at h ⊢
          omega)
        (by simp)
      refine ⟨b, hb, ?_⟩
      rw [hlen]
      have htot : (buf ++ [x]).length + xs.length = buf.length + (x :: xs).length := by
        simp only [List.length_append, List.length_cons, List.length_nil]
        omega
      rw [htot]

/-! ## `Ec2Service.start_instances`

The scheduler iterates over `instance_batches(instances_to_start, 5)`.
Per batch it issues one start call, filters the immediately confirmed
instances, and — when fewer than requested confirmed — sleeps once,
re-describes the batch once, and either `break`s out of the *batch loop*
(when the re-poll confirms everything) or falls through to yield the
re-polled list. `get_status_count` is set to 0 and incremented at most
once, so the `> 3` warning branch can never run. The client is an oracle;
its calls are recorded. Tag bookkeeping and the trailing autoscaling
re-attach are not modelled (no claim depends on them). -/

structure Ec2Instance where
  id : String
  hibernate : Bool
  resized : Bool
deriving DecidableEq

structure StartClient where
  start_instances_with_retries : List String → Except String (List (String × Nat))
  describe_for_status : List String → List (String × Nat)

structure StartRun where
  output : List (String × String)
  warnings : List String
  errors : List String
  startCalls : List (List String)
  describeCalls : List (List String)
  aborted : Bool
deriving DecidableEq

/-- The list comprehension filtering a response's
`(InstanceId, state code)` pairs to those in a starting state. -/
def confirmed_starting (resp : List (String × Nat)) : List String :=
  (resp.filter (fun i => is_in_starting_state i.2)).map (fun i => i.1)

def start_instance_batches (client : StartClient) : List (List Ec2Instance) → StartRun
  | [] => ⟨[], [], [], [], [], false⟩
  | batch :: rest =>
    let instance_ids := batch.map (fun i => i.id)
    match client.start_instances_with_retries instance_ids with
    | .error e =>
      -- `except Exception`: the error is logged and the loop continues
      let r := start_instance_batches client rest
      ⟨r.output, r.warnings, e :: r.errors, instance_ids :: r.startCalls, r.describeCalls, r.aborted⟩
    | .ok resp =>
      let instances_starting := confirmed_starting resp
      if instances_starting.length < instance_ids.length then
        -- time.sleep(5) and one re-poll; the source has no loop here
        let polled := confirmed_starting (client.describe_for_status instance_ids)
        if polled.length = instance_ids.length then
          -- `break`: leaves the batch loop without yielding this batch's
          -- results and without processing the remaining batches
          ⟨[], [], [], [instance_ids], [instance_ids], true⟩
        else
          -- get_status_count becomes 1, never > 3: no warnings are emitted
          let r := start_instance_batches client rest
          ⟨polled.map (fun i => (i, STATE_RUNNING)) ++ r.output, r.warnings, r.errors,
            instance_ids :: r.startCalls, instance_ids :: r.describeCalls, r.aborted⟩
      else
        let r := start_instance_batches client rest
        ⟨instances_starting.map (fun i => (i, STATE_RUNNING)) ++ r.output, r.warnings, r.errors,
          instance_ids :: r.startCalls, r.describeCalls, r.aborted⟩

/-- A provider that immediately reports every requested instance as
running. -/
def happy_start_client : StartClient where
  start_instances_with_retries := fun ids => .ok (ids.map (fun i => (i, EC2_STATE_RUNNING)))
  describe_for_status := fun ids => ids.map (fun i => (i, EC2_STATE_RUNNING))

lemma confirmed_starting_all_running (ids : List String) :
    confirmed_starting (ids.map (fun i => (i, EC2_STATE_RUNNING))) = ids := by
  induction ids with
  | nil => rfl
  | cons i t ih =>
    unfold confirmed_starting at ih ⊢
    simp only [List.map_cons, List.filter_cons]
    rw [if_pos (by trivial)]
    simp only [List.map_cons]
    rw [ih]

lemma start_instance_batches_happy (batches : List (List Ec2Instance)) :
    start_instance_batches happy_start_client batches =
      ⟨(batches.flatten).map (fun i => (i.id, STATE_RUNNING)), [], [],
        batches.map (fun b => b.map (fun i => i.id)), [], false⟩ := by
  induction batches with
  | nil => rfl
  | cons b rest ih =>
    unfold start_instance_batches
    show (let instance_ids := b.map (fun i => i.id);
          let instances_starting :=
            confirmed_starting (instance_ids.map (fun i => (i, EC2_STATE_RUNNING)));
          if instances_starting.length < instance_ids.length then _ else _) = _
    simp only [confirmed_starting_all_running]
    rw [if_neg (by omega)]
    rw [ih]
    simp

/-- C6: `instance_batches` partitions its input in order: the
concatenation of the batches is the input, every batch but the last has
exactly `size` elements, and the last batch has `n mod size` elements
(or `size` when `size` divides `n`). Under a provider that confirms every
start immediately, `start_instances` issues exactly one start call per
batch, in batch order, and yields every instance as RUNNING in input
order. Batching 12 items with size 5 gives batches of sizes 5, 5, 2. -/
theorem instance_batches_spec (l : List Ec2Instance) (s : Nat) (hs : 0 < s) :
    (instance_batches l s).flatten = l
    ∧ (∀ b ∈ (instance_batches l s).dropLast, b.length = s)
    ∧ (l ≠ [] → ∃ b, (instance_batches l s).getLast? = some b ∧
        b.length = if l.length % s = 0 then s else l.length % s)
    ∧ (start_instance_batches happy_start_client (instance_batches l s)).output
        = l.map (fun i => (i.id, STATE_RUNNING))
    ∧ (start_instance_batches happy_start_client (instance_batches l s)).startCalls
        = (instance_batches l s).map (fun b => b.map (fun i => i.id))
    ∧ (instance_batches (List.range 12) 5).map List.length = [5, 5, 2] := by
  refine ⟨instance_batches_aux_flatten s l [], ?_, ?_, ?_, ?_, by decide⟩
  · exact instance_batches_aux_dropLast s hs l [] (by simpa using hs)
  · intro hne
    have := instance_batches_aux_getLast s hs l [] (by simpa using hs)
      (by simpa using fun hh => hne (List.length_eq_zero.mp hh))
    simpa using this
  · rw [start_instance_batches_happy, instance_batches]
    rw [instance_batches_aux_flatten s l []]
    simp
  · rw [start_instance_batches_happy]

/-- Witness for C6 at a concrete input: 3 instances with batch size 2
give a final batch of length 3 mod 2 = 1. -/
theorem instance_batches_spec_witness :
    ∃ b, (instance_batches
        [(⟨"i-1", false, false⟩ : Ec2Instance), ⟨"i-2", false, false⟩, ⟨"i-3", false, false⟩]
        2).getLast? = some b ∧
      b.length = if ([(⟨"i-1", false, false⟩ : Ec2Instance), ⟨"i-2", false, false⟩,
          ⟨"i-3", false, false⟩] : List Ec2Instance).length % 2 = 0 then 2
        else ([(⟨"i-1", false, false⟩ : Ec2Instance), ⟨"i-2", false, false⟩,
          ⟨"i-3", false, false⟩] : List Ec2Instance).length % 2 :=
  (instance_batches_spec
    [⟨"i-1", false, false⟩, ⟨"i-2", false, false⟩, ⟨"i-3", false, false⟩] 2
    (by decide)).2.2.1 (by decide)

/-! C7 concerns the poll-retry budget of `start_instances`. In the source
(lines 549–564) there is no polling loop: `get_status_count` is set to 0
and incremented at most once, so the `get_status_count > 3` branch that
would log the per-instance warnings is unreachable, and the `break`
executed when the single re-poll confirms every instance of the batch
exits the whole batch loop, abandoning this batch's output and all
remaining batches. The two provider oracles below exhibit both behaviours. -/

/-- Start call confirms only the first instance of the batch; re-polling
still reports only the first instance as started. -/
def single_confirm_client : StartClient where
  start_instances_with_retries := fun ids =>
    .ok ((ids.take 1).map (fun i => (i, EC2_STATE_RUNNING)))
  describe_for_status := fun ids =>
    (ids.take 1).map (fun i => (i, EC2_STATE_RUNNING)) ++
      (ids.drop 1).map (fun i => (i, EC2_STATE_STOPPED))

/-- Start call confirms only the first instance of the batch; the re-poll
then reports every instance as started. -/
def poll_all_client : StartClient where
  start_instances_with_retries := fun ids =>
    .ok ((ids.take 1).map (fun i => (i, EC2_STATE_RUNNING)))
  describe_for_status := fun ids => ids.map (fun i => (i, EC2_STATE_RUNNING))

/-- C7 (code bug): with two batches [[i-a, i-b], [i-c]] where the provider
confirms fewer instances than requested at first:
with `single_confirm_client` the run performs exactly one re-poll for the
first batch, emits no warning for the never-started instance i-b, and
continues; with `poll_all_client` the successful re-poll `break`s out of
the batch loop, so the run yields nothing at all and the second batch is
never started. The claim's behaviour — more than 3 poll attempts followed
by a warning per unconfirmed instance and continuation with the remaining
batches — is unreachable in the source. -/
theorem start_poll_budget_code_bug :
    (start_instance_batches single_confirm_client
        [[⟨"i-a", false, false⟩, ⟨"i-b", false, false⟩], [⟨"i-c", false, false⟩]] =
      ⟨[("i-a", STATE_RUNNING), ("i-c", STATE_RUNNING)], [], [],
        [["i-a", "i-b"], ["i-c"]], [["i-a", "i-b"]], false⟩) ∧
    (start_instance_batches poll_all_client
        [[⟨"i-a", false, false⟩, ⟨"i-b", false, false⟩], [⟨"i-c", false, false⟩]] =
      ⟨[], [], [], [["i-a", "i-b"]], [["i-a", "i-b"]], true⟩) := by
  constructor <;> rfl

/-! ## `Ec2Service.stop_instances` (source lines 391–521)

Per batch the source splits the instances into `hibernated` (hibernate
flag set and not resized) and `not_hibernated`, retries the hibernating
stop in a `while len(hibernated) > 0` loop — removing from `hibernated`
and appending to `not_hibernated` any instance id named by a
`ClientError` — then stops the `not_hibernated` ids without hibernation,
runs the same single-re-poll-with-`break` section as the start path, and
yields each stopping instance with state stopped. The autoscaling
detach pass and the tag bookkeeping are not modelled (no claim depends
on them); client calls, confirmations and warnings are recorded as
events. -/

def START_BATCH_SIZE : Nat := 5
def STOP_BATCH_SIZE : Nat := 50

structure ClientError where
  code : String
  message : String
deriving DecidableEq

structure StopClient where
  stop_instances_with_retries : List String → Bool → Except ClientError (List (String × Nat))
  describe_for_status : List String → List (String × Nat)

inductive StopEvent where
  | stopCall (ids : List String) (hibernate : Bool)
  | confirmedStopping (ids : List String)
  | warnNotHibernated (id : String)
  | warnNoHibernateResized (id : String)
  | errStopping (ids : List String)
  | describeCall (ids : List String)
deriving DecidableEq

/-- Extraction of the offending instance id from a stop error
(source lines 466–471): `UnsupportedHibernationConfiguration` takes the
text after the last ':', `UnsupportedOperation` the second
space-separated word, both stripped; other codes give no id. -/
def error_instance_id (ex : ClientError) : Option String :=
  if ex.code = "UnsupportedHibernationConfiguration" then
    some (pyStrip ((pySplit ':' ex.message).getLastD ""))
  else if ex.code = "UnsupportedOperation" then
    some (pyStrip ((pySplit ' ' ex.message).getD 1 ""))
  else none

/-- The list comprehension filtering a stop response's
`(InstanceId, state code)` pairs to those in a stopping state. -/
def confirmed_stopping (resp : List (String × Nat)) : List String :=
  (resp.filter (fun i => is_in_stopping_state i.2)).map (fun i => i.1)

structure HibernateLoopState where
  hibernated : List String
  not_hibernated : List String
  instances_stopping : List String
  events : List StopEvent
deriving DecidableEq

/-- The `while len(hibernated) > 0` hibernating-stop retry loop (source
lines 459–477). The explicit fuel stands for the unbounded Python loop;
`none` means the fuel ran out (the Python loop would keep retrying). -/
def hibernate_stop_loop (client : StopClient) : Nat → HibernateLoopState → Option HibernateLoopState
  | 0, _ => none
  | fuel + 1, st =>
    if 0 < st.hibernated.length then
      match client.stop_instances_with_retries st.hibernated true with
      | .ok resp =>
        some { st with
          instances_stopping := st.instances_stopping ++ confirmed_stopping resp,
          events := st.events ++
            [.stopCall st.hibernated true, .confirmedStopping (confirmed_stopping resp)] }
      | .error ex =>
        match error_instance_id ex with
        | some instance_id =>
          if instance_id ∈ st.hibernated then
            hibernate_stop_loop client fuel
              { st with
                hibernated := st.hibernated.erase instance_id,
                not_hibernated := st.not_hibernated ++ [instance_id],
                events := st.events ++
                  [.stopCall st.hibernated true, .warnNotHibernated instance_id] }
          else
            hibernate_stop_loop client fuel
              { st with events := st.events ++
                  [.stopCall st.hibernated true, .errStopping st.hibernated] }
        | none =>
          hibernate_stop_loop client fuel
            { st with events := st.events ++
                [.stopCall st.hibernated true, .errStopping st.hibernated] }
    else some st

structure StopBatchResult where
  output : List (String × String)
  events : List StopEvent
  aborted : Bool
deriving DecidableEq

/-- One iteration of the batch loop of `stop_instances`
(source lines 439–518). -/
def stop_one_batch (client : StopClient) (fuel : Nat) (batch : List Ec2Instance) :
    Option StopBatchResult :=
  let instance_ids := batch.map (fun i => i.id)
  let hibernated := (batch.filter (fun i => i.hibernate && !i.resized)).map (fun i => i.id)
  let not_hibernated := (batch.filter (fun i => !(hibernated.contains i.id))).map (fun i => i.id)
  let events0 := ((batch.filter (fun i => i.hibernate && i.resized)).map
    (fun i => StopEvent.warnNoHibernateResized i.id))
  match hibernate_stop_loop client fuel ⟨hibernated, not_hibernated, [], events0⟩ with
  | none => none
  | some st =>
    let step2 :=
      if 0 < st.not_hibernated.length then
        match client.stop_instances_with_retries st.not_hibernated false with
        | .ok resp =>
          (st.instances_stopping ++ confirmed_stopping resp,
            st.events ++ [.stopCall st.not_hibernated false,
              .confirmedStopping (confirmed_stopping resp)])
        | .error _ =>
          (st.instances_stopping,
            st.events ++ [.stopCall st.not_hibernated false, .errStopping st.not_hibernated])
      else (st.instances_stopping, st.events)
    let instances_stopping := step2.1
    let events1 := step2.2
    if instances_stopping.length < instance_ids.length then
      let polled := confirmed_stopping (client.describe_for_status instance_ids)
      if polled.length = instance_ids.length then
        -- `break`: leaves the batch loop without yielding
        some ⟨[], events1 ++ [.describeCall instance_ids], true⟩
      else
        -- get_status_count becomes 1, never > 3: no warnings, fall through
        some ⟨polled.map (fun i => (i, STATE_STOPPED)), events1 ++ [.describeCall instance_ids], false⟩
    else
      some ⟨instances_stopping.map (fun i => (i, STATE_STOPPED)), events1, false⟩

def stop_instance_batches (client : StopClient) (fuel : Nat) :
    List (List Ec2Instance) → Option (List (String × String) × List StopEvent × Bool)
  | [] => some ([], [], false)
  | batch :: rest =>
    match stop_one_batch client fuel batch with
    | none => none
    | some r =>
      if r.aborted then some (r.output, r.events, true)
      else
        match stop_instance_batches client fuel rest with
        | none => none
        | some (out, evs, ab) => some (r.output ++ out, r.events ++ evs, ab)

/-- `stop_instances`: batches of `STOP_BATCH_SIZE` in input order. -/
def stop_instances (client : StopClient) (fuel : Nat) (stopped_instances : List Ec2Instance) :
    Option (List (String × String) × List StopEvent × Bool) :=
  stop_instance_batches client fuel (instance_batches stopped_instances STOP_BATCH_SIZE)

/-- Decides, over an event trace, that no stop call is issued for an
instance that an earlier response already confirmed as stopping. -/
def no_stop_reissue_aux : List String → List StopEvent → Bool
  | _, [] => true
  | conf, e :: es =>
    match e with
    | .stopCall ids _ =>
      if ids.any (fun i => conf.contains i) then false else no_stop_reissue_aux conf es
    | .confirmedStopping ids => no_stop_reissue_aux (conf ++ ids) es
    | _ => no_stop_reissue_aux conf es

def no_stop_reissue (events : List StopEvent) : Bool :=
  no_stop_reissue_aux [] events

lemma confirmed_stopping_all_stopping (ids : List String) :
    confirmed_stopping (ids.map (fun i => (i, EC2_STATE_STOPPING))) = ids := by
  induction ids with
  | nil => rfl
  | cons i t ih =>
    unfold confirmed_stopping at ih ⊢
    simp only [List.map_cons, List.filter_cons]
    rw [if_pos (by trivial)]
    simp only [List.map_cons]
    rw [ih]

lemma hibernate_stop_loop_done (client : StopClient) (fuel : Nat)
    (st : HibernateLoopState) (h : st.hibernated = []) :
    hibernate_stop_loop client (fuel + 1) st = some st := by
  unfold hibernate_stop_loop
  rw [if_neg (by simp [h])]

lemma hibernate_stop_loop_ok (client : StopClient) (fuel : Nat)
    (st : HibernateLoopState) (resp : List (String × Nat))
    (h0 : 0 < st.hibernated.length)
    (hok : client.stop_instances_with_retries st.hibernated true = .ok resp) :
    hibernate_stop_loop client (fuel + 1) st =
      some { st with
        instances_stopping := st.instances_stopping ++ confirmed_stopping resp,
        events := st.events ++
          [.stopCall st.hibernated true, .confirmedStopping (confirmed_stopping resp)] } := by
  unfold hibernate_stop_loop
  rw [if_pos h0, hok]

lemma hibernate_stop_loop_reject (client : StopClient) (fuel : Nat)
    (st : HibernateLoopState) (ex : ClientError) (r : String)
    (h0 : 0 < st.hibernated.length)
    (hex : client.stop_instances_with_retries st.hibernated true = .error ex)
    (hid : error_instance_id ex = some r)
    (hmem : r ∈ st.hibernated) :
    hibernate_stop_loop client (fuel + 1) st = hibernate_stop_loop client fuel
      ⟨st.hibernated.erase r, st.not_hibernated ++ [r], st.instances_stopping,
        st.events ++ [.stopCall st.hibernated true, .warnNotHibernated r]⟩ := by
  conv_lhs => rw [hibernate_stop_loop]
  rw [if_pos h0]
  simp only [hex]
  simp only [hid]
  rw [if_pos hmem]

/-- The provider used by the concrete C5 scenario: rejects any hibernating
stop whose batch contains `i-0b` with an error naming that instance, and
confirms everything else as stopping. -/
def reject_b_stop_client : StopClient where
  stop_instances_with_retries := fun ids hibernate =>
    if hibernate ∧ "i-0b" ∈ ids then
      .error ⟨"UnsupportedHibernationConfiguration",
        "Instances are not in a state from which they can be hibernated: i-0b"⟩
    else .ok (ids.map (fun i => (i, EC2_STATE_STOPPING)))
  describe_for_status := fun ids => ids.map (fun i => (i, EC2_STATE_STOPPING))

/-- C5: (general part) whenever the provider rejects a hibernating stop
with an error naming one instance `r` of the batch and accepts any
hibernating batch not containing `r`, the retry loop removes `r` from the
hibernating set, appends it to the non-hibernating set, and re-issues the
hibernating stop only for the remaining instances, which are all
confirmed stopping. (Concrete part) for a hibernating batch of 3 whose
provider rejects `i-0b`: the run stops `i-0a`, `i-0c` with hibernation
and retries `i-0b` without hibernation, the output contains all three ids
with state stopped, and no stop call is issued for an instance already
confirmed stopping. -/
theorem stop_hibernation_fallback :
    (∀ (client : StopClient) (r : String) (hib nothib stopping : List String)
        (events : List StopEvent) (fuel : Nat),
      r ∈ hib → hib.Nodup →
      (∀ ids, r ∈ ids →
        ∃ ex, client.stop_instances_with_retries ids true = .error ex ∧
          error_instance_id ex = some r) →
      (∀ ids, r ∉ ids →
        client.stop_instances_with_retries ids true =
          .ok (ids.map (fun i => (i, EC2_STATE_STOPPING)))) →
      hibernate_stop_loop client (fuel + 2) ⟨hib, nothib, stopping, events⟩ =
        some ⟨hib.erase r, nothib ++ [r], stopping ++ hib.erase r,
          events ++ [.stopCall hib true, .warnNotHibernated r] ++
            (if hib.erase r = [] then []
             else [.stopCall (hib.erase r) true,
               .confirmedStopping (hib.erase r)])⟩) ∧
    (stop_instances reject_b_stop_client 2
        [⟨"i-0a", true, false⟩, ⟨"i-0b", true, false⟩, ⟨"i-0c", true, false⟩] =
      some ([("i-0a", STATE_STOPPED), ("i-0c", STATE_STOPPED), ("i-0b", STATE_STOPPED)],
        [.stopCall ["i-0a", "i-0b", "i-0c"] true, .warnNotHibernated "i-0b",
         .stopCall ["i-0a", "i-0c"] true, .confirmedStopping ["i-0a", "i-0c"],
         .stopCall ["i-0b"] false, .confirmedStopping ["i-0b"]], false)) ∧
    (no_stop_reissue
        [.stopCall ["i-0a", "i-0b", "i-0c"] true, .warnNotHibernated "i-0b",
         .stopCall ["i-0a", "i-0c"] true, .confirmedStopping ["i-0a", "i-0c"],
         .stopCall ["i-0b"] false, .confirmedStopping ["i-0b"]] = true) := by
  refine ⟨?_, by rfl, by rfl⟩
  intro client r hib nothib stopping events fuel hr hnod hrej hok
  obtain ⟨ex, hex, hid⟩ := hrej hib hr
  have h0 : 0 < hib.length := List.length_pos.mpr (List.ne_nil_of_mem hr)
  rw [show fuel + 2 = fuel + 1 + 1 from rfl]
  rw [hibernate_stop_loop_reject client (fuel + 1) ⟨hib, nothib, stopping, events⟩ ex r h0 hex hid hr]
  by_cases he : hib.erase r = []
  · rw [hibernate_stop_loop_done client fuel _ he]
    simp [he]
  · have h0' : 0 < (hib.erase r).length := List.length_pos.mpr he
    have hok' := hok (hib.erase r) hnod.not_mem_erase
    rw [hibernate_stop_loop_ok client fuel _ _ h0' hok']
    rw [confirmed_stopping_all_stopping (hib.erase r)]
    rw [if_neg he]

/-- Witness for C5's general part at the concrete 3-instance scenario. -/
theorem stop_hibernation_fallback_witness :
    hibernate_stop_loop reject_b_stop_client 2
        ⟨["i-0a", "i-0b", "i-0c"], [], [], []⟩ =
      some ⟨["i-0a", "i-0c"], ["i-0b"], ["i-0a", "i-0c"],
        [.stopCall ["i-0a", "i-0b", "i-0c"] true, .warnNotHibernated "i-0b",
         .stopCall ["i-0a", "i-0c"] true, .confirmedStopping ["i-0a", "i-0c"]]⟩ :=
  (stop_hibernation_fallback.1 reject_b_stop_client "i-0b"
    ["i-0a", "i-0b", "i-0c"] [] [] [] 0
    (by decide) (by decide)
    (fun ids h => ⟨⟨"UnsupportedHibernationConfiguration",
      "Instances are not in a state from which they can be hibernated: i-0b"⟩,
      by simp [reject_b_stop_client, h], by decide⟩)
    (fun ids h => by simp [reject_b_stop_client, h])).trans (by decide)

/-! ## Schedule data types

The fields of `RunningPeriod` / `InstanceSchedule`
(`configuration/running_period.py`, `configuration/instance_schedule.py`,
not under src/) that `Ec2Service._schedule_from_maint_window` passes to
their constructors. Clock times are minute-precision pairs; a period's
absent begin/end time or day/month set is `none`. The schedule's period
list pairs each period with the `"instancetype"` entry of the source's
period dicts (always `None` here). -/

structure TimeOfDay where
  hour : Nat
  minute : Nat
deriving DecidableEq

structure RunningPeriod where
  name : String
  begintime : Option TimeOfDay
  endtime : Option TimeOfDay
  monthdays : Option (List Nat)
  months : Option (List Nat)
deriving DecidableEq

structure InstanceSchedule where
  name : String
  timezone : String
  description : String
  enforced : Bool
  periods : List (RunningPeriod × Option String)
deriving DecidableEq

/-! ## Discovery (`get_schedulable_instances`, `_select_instance_data`)
and the per-run maintenance-window cache -/

/-- A value of the `self._ssm_maintenance_windows` dict: either a
synthesized schedule or the `"NOT-FOUND"` sentinel string. -/
inductive WinEntry where
  | sched (s : InstanceSchedule)
  | notFound
deriving DecidableEq

/-- Python-dict `get` over an association list where the newest binding
shadows older ones. -/
def cache_get (c : List (String × WinEntry)) (k : String) : Option WinEntry :=
  match c with
  | [] => none
  | (k', v) :: rest => if k' = k then some v else cache_get rest k

/-- Python-dict assignment: the new binding shadows any older one. -/
def cache_set (c : List (String × WinEntry)) (k : String) (v : WinEntry) :
    List (String × WinEntry) :=
  (k, v) :: c

/-- The per-schedule configuration fields read by the discovery path. -/
structure ScheduleCfg where
  name : String
  hibernate : Bool
  use_maintenance_window : Bool
  ssm_maintenance_window : Option String
deriving DecidableEq

/-- The fields of a described EC2 instance that the discovery path reads
(after the jmespath projection); `tags = []` models an instance without
a `Tags` entry. -/
structure RawInstance where
  instanceId : String
  tags : List (String × String)
  stateCode : Nat
  stateName : String
  instanceType : String
deriving DecidableEq

/-- Python `{tag.Key: tag.Value}.get(k)`: the last entry for a key wins. -/
def tags_get (tags : List (String × String)) (k : String) : Option String :=
  tags.foldl (fun acc p => if p.1 = k then some p.2 else acc) none

/-- jmespath `contains(Tags[*].Key, k)`. -/
def tags_has_key (tags : List (String × String)) (k : String) : Bool :=
  tags.any (fun p => p.1 = k)

/-- The instance-data dict built by `_select_instance_data`. -/
structure InstanceData where
  id : String
  schedule_name : Option String
  hibernate : Bool
  name : String
  state : Nat
  state_name : String
  allow_resize : Bool
  resized : Bool
  is_running : Bool
  is_terminated : Bool
  current_state : String
  instance_type : String
  tags : List (String × String)
  maintenance_window : Option InstanceSchedule
deriving DecidableEq

inductive DiscoveryLog where
  | errMaintWindowNotFound (window schedule : String)
deriving DecidableEq

/-- The maintenance-window block of `_select_instance_data` (source lines
309–316) for a resolved schedule: a failed lookup logs the not-found
error and stores the sentinel; a sentinel hit does neither; in both
cases no window schedule is attached. -/
def maintenance_window_for (cache : List (String × WinEntry)) (sc : ScheduleCfg) :
    Option InstanceSchedule × List (String × WinEntry) × List DiscoveryLog :=
  if sc.use_maintenance_window ∧ sc.ssm_maintenance_window ≠ none ∧
      sc.ssm_maintenance_window ≠ some "" then
    match cache_get cache (sc.ssm_maintenance_window.getD "") with
    | none =>
      (none, cache_set cache (sc.ssm_maintenance_window.getD "") .notFound,
        [.errMaintWindowNotFound (sc.ssm_maintenance_window.getD "") sc.name])
    | some .notFound => (none, cache, [])
    | some (.sched s) => (some s, cache, [])
  else (none, cache, [])

def maintenance_window_lookup (cache : List (String × WinEntry)) :
    Option ScheduleCfg → Option InstanceSchedule × List (String × WinEntry) × List DiscoveryLog
  | some sc => maintenance_window_for cache sc
  | none => (none, cache, [])

/-- `_select_instance_data`: builds the instance record and threads the
maintenance-window cache and the error log. -/
def select_instance_data (schedules : List ScheduleCfg)
    (schedules_with_hibernation : List String) (tagname : String)
    (cache : List (String × WinEntry)) (inst : RawInstance) :
    InstanceData × List (String × WinEntry) × List DiscoveryLog :=
  let tags := inst.tags
  let state := inst.stateCode % 256
  let schedule_name := tags_get tags tagname
  let mwl := maintenance_window_lookup cache
    (schedule_name.bind (fun n => schedules.find? (fun s => s.name = n)))
  ({ id := inst.instanceId
     schedule_name := schedule_name
     hibernate := match schedule_name with
       | some n => schedules_with_hibernation.contains n
       | none => false
     name := (tags_get tags "Name").getD ""
     state := state
     state_name := inst.stateName
     allow_resize := true
     resized := false
     is_running := EC2_STATE_RUNNING == state
     is_terminated := state == EC2_STATE_TERMINATED
     current_state := if EC2_STATE_RUNNING == state then STATE_RUNNING else STATE_STOPPED
     instance_type := inst.instanceType
     tags := tags
     maintenance_window := mwl.1 }, mwl.2.1, mwl.2.2)

/-- The per-instance part of the fetch loop of `get_schedulable_instances`:
select each instance's data, keep those in a schedulable state, thread
the cache and collect the logged errors. -/
def process_discovered (schedules : List ScheduleCfg)
    (schedules_with_hibernation : List String) (tagname : String) :
    List (String × WinEntry) → List RawInstance →
      List InstanceData × List (String × WinEntry) × List DiscoveryLog
  | cache, [] => ([], cache, [])
  | cache, i :: rest =>
    let r := select_instance_data schedules schedules_with_hibernation tagname cache i
    let rest' := process_discovered schedules schedules_with_hibernation tagname r.2.1 rest
    ((if is_in_schedulable_state r.1.state then [r.1] else []) ++ rest'.1,
      rest'.2.1, r.2.2 ++ rest'.2.2)

/-- `get_schedulable_instances`: pages of described instances are
filtered by the jmespath expression (`[?Tags]` and
`contains(Tags[*].Key, tagname)`), then each selected record in a
schedulable state is kept. `windows` is the already-fetched
`ssm_maintenance_windows` dict. -/
def get_schedulable_instances (schedules : List ScheduleCfg) (tagname : String)
    (windows : List (String × WinEntry)) (pages : List (List RawInstance)) :
    List InstanceData × List (String × WinEntry) × List DiscoveryLog :=
  let schedules_with_hibernation := (schedules.filter (fun s => s.hibernate)).map (fun s => s.name)
  process_discovered schedules schedules_with_hibernation tagname windows
    ((pages.map (fun page =>
      page.filter (fun i => !i.tags.isEmpty && tags_has_key i.tags tagname))).flatten)

/-! ## Theorems about discovery (C8) and the window cache (C9) -/

lemma schedulable_state_cases (s : Nat) (h : is_in_schedulable_state s = true)
    (hlt : s < 256) : s = EC2_STATE_RUNNING ∨ s = EC2_STATE_STOPPED := by
  unfold is_in_schedulable_state EC2_STATE_RUNNING EC2_STATE_STOPPED at *
  simp only [Bool.or_eq_true, beq_iff_eq] at h
  omega

lemma process_discovered_inv (schedules : List ScheduleCfg)
    (hibnames : List String) (tagname : String) :
    ∀ (l : List RawInstance) (cache : List (String × WinEntry)),
      (∀ i ∈ l, tags_has_key i.tags tagname = true) →
      ∀ d ∈ (process_discovered schedules hibnames tagname cache l).1,
        tags_has_key d.tags tagname = true ∧
          (d.state = EC2_STATE_RUNNING ∨ d.state = EC2_STATE_STOPPED) := by
  intro l
  induction l with
  | nil =>
    intro cache _ d hd
    simp [process_discovered] at hd
  | cons i rest ih =>
    intro cache hpre d hd
    simp only [process_discovered] at hd
    rcases List.mem_append.mp hd with h1 | h2
    · by_cases hs : is_in_schedulable_state
        ((select_instance_data schedules hibnames tagname cache i).1.state) = true
      · rw [if_pos hs] at h1
        have hdq : d = (select_instance_data schedules hibnames tagname cache i).1 := by
          simpa using h1
        subst hdq
        constructor
        · show tags_has_key i.tags tagname = true
          exact hpre i (List.mem_cons_self i rest)
        · refine schedulable_state_cases _ hs ?_
          show i.stateCode % 256 < 256
          exact Nat.mod_lt _ (by omega)
      · rw [if_neg hs] at h1
        simp at h1
    · exact ih _ (fun j hj => hpre j (List.mem_cons_of_mem _ hj)) d h2

/-- C8: every record returned by `get_schedulable_instances` carries the
configured schedule tag key and is in lifecycle state running (16) or
stopped (80); no pending / shutting-down / stopping / terminated instance
is ever returned. -/
theorem get_schedulable_instances_invariant (schedules : List ScheduleCfg)
    (tagname : String) (windows : List (String × WinEntry))
    (pages : List (List RawInstance)) :
    ∀ d ∈ (get_schedulable_instances schedules tagname windows pages).1,
      tags_has_key d.tags tagname = true ∧
        (d.state = EC2_STATE_RUNNING ∨ d.state = EC2_STATE_STOPPED) := by
  intro d hd
  simp only [get_schedulable_instances] at hd
  refine process_discovered_inv schedules _ tagname _ windows ?_ d hd
  intro i hi
  rcases List.mem_flatten.mp hi with ⟨page', hp', hip⟩
  rcases List.mem_map.mp hp' with ⟨page, _, rfl⟩
  have hfil := List.of_mem_filter hip
  simp only [Bool.and_eq_true] at hfil
  exact hfil.2

/-- Witness for C8: a single tagged running instance is returned, carries
the tag key, and its state is running. -/
theorem get_schedulable_instances_invariant_witness :
    tags_has_key
        (⟨"i-1", some "sched", false, "", 16, "running", true, false, true, false,
          STATE_RUNNING, "t2", [("Schedule", "sched")], none⟩ : InstanceData).tags
        "Schedule" = true ∧
      ((⟨"i-1", some "sched", false, "", 16, "running", true, false, true, false,
          STATE_RUNNING, "t2", [("Schedule", "sched")], none⟩ : InstanceData).state =
          EC2_STATE_RUNNING ∨
        (⟨"i-1", some "sched", false, "", 16, "running", true, false, true, false,
          STATE_RUNNING, "t2", [("Schedule", "sched")], none⟩ : InstanceData).state =
          EC2_STATE_STOPPED) :=
  get_schedulable_instances_invariant [] "Schedule" []
    [[⟨"i-1", [("Schedule", "sched")], 16, "running", "t2"⟩]]
    ⟨"i-1", some "sched", false, "", 16, "running", true, false, true, false,
      STATE_RUNNING, "t2", [("Schedule", "sched")], none⟩ (by decide)

lemma cache_get_set (c : List (String × WinEntry)) (k : String) (v : WinEntry) :
    cache_get (cache_set c k v) k = some v := by
  simp [cache_get, cache_set]

lemma maintenance_window_lookup_not_found (schedules : List ScheduleCfg)
    (cache : List (String × WinEntry)) (i : RawInstance) (tagname sn : String)
    (sc : ScheduleCfg) (w : String)
    (h1 : tags_get i.tags tagname = some sn)
    (h2 : schedules.find? (fun s => s.name = sn) = some sc)
    (h3 : sc.use_maintenance_window = true)
    (h4 : sc.ssm_maintenance_window = some w) (h5 : w ≠ "")
    (h6 : cache_get cache w = none) :
    maintenance_window_lookup cache
        ((tags_get i.tags tagname).bind (fun n => schedules.find? (fun s => s.name = n))) =
      (none, cache_set cache w .notFound, [.errMaintWindowNotFound w sc.name]) := by
  rw [h1, Option.some_bind, h2]
  show maintenance_window_for cache sc = _
  unfold maintenance_window_for
  rw [if_pos ⟨h3, by rw [h4]; simp, by rw [h4]; simp [h5]⟩]
  rw [h4]
  simp only [Option.getD_some]
  rw [h6]

lemma maintenance_window_lookup_sentinel (schedules : List ScheduleCfg)
    (cache : List (String × WinEntry)) (i : RawInstance) (tagname sn : String)
    (sc : ScheduleCfg) (w : String)
    (h1 : tags_get i.tags tagname = some sn)
    (h2 : schedules.find? (fun s => s.name = sn) = some sc)
    (h3 : sc.use_maintenance_window = true)
    (h4 : sc.ssm_maintenance_window = some w) (h5 : w ≠ "")
    (h6 : cache_get cache w = some .notFound) :
    maintenance_window_lookup cache
        ((tags_get i.tags tagname).bind (fun n => schedules.find? (fun s => s.name = n))) =
      (none, cache, []) := by
  rw [h1, Option.some_bind, h2]
  show maintenance_window_for cache sc = _
  unfold maintenance_window_for
  rw [if_pos ⟨h3, by rw [h4]; simp, by rw [h4]; simp [h5]⟩]
  rw [h4]
  simp only [Option.getD_some]
  rw [h6]

lemma select_components (schedules : List ScheduleCfg) (hibnames : List String)
    (tagname : String) (cache : List (String × WinEntry)) (i : RawInstance) :
    (select_instance_data schedules hibnames tagname cache i).1.maintenance_window =
        (maintenance_window_lookup cache
          ((tags_get i.tags tagname).bind (fun n => schedules.find? (fun s => s.name = n)))).1 ∧
      (select_instance_data schedules hibnames tagname cache i).2.1 =
        (maintenance_window_lookup cache
          ((tags_get i.tags tagname).bind (fun n => schedules.find? (fun s => s.name = n)))).2.1 ∧
      (select_instance_data schedules hibnames tagname cache i).2.2 =
        (maintenance_window_lookup cache
          ((tags_get i.tags tagname).bind (fun n => schedules.find? (fun s => s.name = n)))).2.2 :=
  ⟨rfl, rfl, rfl⟩

lemma process_replicate_sentinel (schedules : List ScheduleCfg)
    (hibnames : List String) (tagname : String) (i : RawInstance) (sn : String)
    (sc : ScheduleCfg) (w : String)
    (h1 : tags_get i.tags tagname = some sn)
    (h2 : schedules.find? (fun s => s.name = sn) = some sc)
    (h3 : sc.use_maintenance_window = true)
    (h4 : sc.ssm_maintenance_window = some w) (h5 : w ≠ "") :
    ∀ (m : Nat) (cache : List (String × WinEntry)),
      cache_get cache w = some .notFound →
      (process_discovered schedules hibnames tagname cache (List.replicate m i)).2.2 = [] ∧
      (process_discovered schedules hibnames tagname cache (List.replicate m i)).2.1 = cache ∧
      ∀ d ∈ (process_discovered schedules hibnames tagname cache (List.replicate m i)).1,
        d.maintenance_window = none := by
  intro m
  induction m with
  | zero =>
    intro cache _
    refine ⟨rfl, rfl, ?_⟩
    intro d hd
    simp [process_discovered] at hd
  | succ m ih =>
    intro cache hc
    have hmw := maintenance_window_lookup_sentinel schedules cache i tagname sn sc w
      h1 h2 h3 h4 h5 hc
    have hsel := select_components schedules hibnames tagname cache i
    rw [List.replicate_succ]
    simp only [process_discovered]
    rw [hsel.2.1, hsel.2.2, hmw]
    obtain ⟨ihlog, ihcache, ihmem⟩ := ih cache hc
    refine ⟨by simp [ihlog], by simp [ihcache], ?_⟩
    intro d hd
    rcases List.mem_append.mp hd with hl | hr
    · have hdq : d = (select_instance_data schedules hibnames tagname cache i).1 := by
        by_cases hs : is_in_schedulable_state
          ((select_instance_data schedules hibnames tagname cache i).1.state) = true
        · rw [if_pos hs] at hl
          simpa using hl
        · rw [if_neg hs] at hl
          simp at hl
      subst hdq
      rw [hsel.1, hmw]
    · exact ihmem d hr

/-- C9: when a schedule references a maintenance window whose name is not
in the fetched window map, the first enrichment logs one not-found error
and stores the `"NOT-FOUND"` sentinel under that name; an enrichment that
hits the sentinel logs nothing, leaves the cache unchanged, and attaches
no window schedule; hence over any run of `n + 1` enrichments referencing
the same missing window, exactly one error is logged, the cache ends with
the sentinel, and no returned record carries a maintenance-window
schedule. -/
theorem maintenance_window_sentinel_caching (schedules : List ScheduleCfg)
    (hibnames : List String) (tagname : String) (i : RawInstance) (sn : String)
    (sc : ScheduleCfg) (w : String) (cache : List (String × WinEntry))
    (h1 : tags_get i.tags tagname = some sn)
    (h2 : schedules.find? (fun s => s.name = sn) = some sc)
    (h3 : sc.use_maintenance_window = true)
    (h4 : sc.ssm_maintenance_window = some w) (h5 : w ≠ "") :
    (cache_get cache w = none →
      (select_instance_data schedules hibnames tagname cache i).1.maintenance_window = none ∧
      (select_instance_data schedules hibnames tagname cache i).2.1 =
        cache_set cache w .notFound ∧
      (select_instance_data schedules hibnames tagname cache i).2.2 =
        [.errMaintWindowNotFound w sc.name]) ∧
    (cache_get cache w = some .notFound →
      (select_instance_data schedules hibnames tagname cache i).1.maintenance_window = none ∧
      (select_instance_data schedules hibnames tagname cache i).2.1 = cache ∧
      (select_instance_data schedules hibnames tagname cache i).2.2 = []) ∧
    (cache_get cache w = none → ∀ n : Nat,
      (process_discovered schedules hibnames tagname cache
          (List.replicate (n + 1) i)).2.2 = [.errMaintWindowNotFound w sc.name] ∧
      (process_discovered schedules hibnames tagname cache
          (List.replicate (n + 1) i)).2.1 = cache_set cache w .notFound ∧
      ∀ d ∈ (process_discovered schedules hibnames tagname cache
          (List.replicate (n + 1) i)).1, d.maintenance_window = none) := by
  have hsel := select_components schedules hibnames tagname cache i
  refine ⟨?_, ?_, ?_⟩
  · intro h6
    have hmw := maintenance_window_lookup_not_found schedules cache i tagname sn sc w
      h1 h2 h3 h4 h5 h6
    exact ⟨by rw [hsel.1, hmw], by rw [hsel.2.1, hmw], by rw [hsel.2.2, hmw]⟩
  · intro h6
    have hmw := maintenance_window_lookup_sentinel schedules cache i tagname sn sc w
      h1 h2 h3 h4 h5 h6
    exact ⟨by rw [hsel.1, hmw], by rw [hsel.2.1, hmw], by rw [hsel.2.2, hmw]⟩
  · intro h6 n
    have hmw := maintenance_window_lookup_not_found schedules cache i tagname sn sc w
      h1 h2 h3 h4 h5 h6
    obtain ⟨slog, scache, smem⟩ := process_replicate_sentinel schedules hibnames tagname
      i sn sc w h1 h2 h3 h4 h5 n (cache_set cache w .notFound) (cache_get_set cache w .notFound)
    rw [List.replicate_succ]
    simp only [process_discovered]
    rw [hsel.2.1, hsel.2.2, hmw]
    refine ⟨by simp [slog], by simp [scache], ?_⟩
    intro d hd
    rcases List.mem_append.mp hd with hl | hr
    · have hdq : d = (select_instance_data schedules hibnames tagname cache i).1 := by
        by_cases hs : is_in_schedulable_state
          ((select_instance_data schedules hibnames tagname cache i).1.state) = true
        · rw [if_pos hs] at hl
          simpa using hl
        · rw [if_neg hs] at hl
          simp at hl
      subst hdq
      rw [hsel.1, hmw]
    · exact smem d hr

/-- Witness for C9 at a concrete configuration: one schedule `sched`
using missing window `mw-1`, one tagged instance, empty cache. -/
theorem maintenance_window_sentinel_caching_witness :
    (select_instance_data [⟨"sched", false, true, some "mw-1"⟩] [] "Schedule" []
        ⟨"i-1", [("Schedule", "sched")], 16, "running", "t2"⟩).1.maintenance_window = none ∧
      (select_instance_data [⟨"sched", false, true, some "mw-1"⟩] [] "Schedule" []
        ⟨"i-1", [("Schedule", "sched")], 16, "running", "t2"⟩).2.1 =
        cache_set [] "mw-1" .notFound ∧
      (select_instance_data [⟨"sched", false, true, some "mw-1"⟩] [] "Schedule" []
        ⟨"i-1", [("Schedule", "sched")], 16, "running", "t2"⟩).2.2 =
        [.errMaintWindowNotFound "mw-1" "sched"] :=
  (maintenance_window_sentinel_caching [⟨"sched", false, true, some "mw-1"⟩] [] "Schedule"
    ⟨"i-1", [("Schedule", "sched")], 16, "running", "t2"⟩ "sched"
    ⟨"sched", false, true, some "mw-1"⟩ "mw-1" []
    (by decide) (by decide) (by decide) (by decide) (by decide)).1 (by decide)

/-! ## `ScheduleResourceHandler._create_schedule` / `_delete_periods`
(`requesthandlers/schedule_resource_handler.py`)

Periods created for a schedule are named
`"{}-period-{:0>4d}".format(schedule_resource_name, i)` with `i` counting
from 1; the (schedule name, index) pair determines the name injectively
and is used as the name here. `ConfigAdmin` is not under src/; modelled
from the spec as a store of existing period names where `create_period`
adds a name and `delete_period(name, exception_if_not_exists=False)`
removes it, returning None (here: reporting absence) when it does not
exist. -/

/-- Outcome of handling one period description in `_create_schedule`'s
loop: the properties validate and `ConfigAdmin.create_period` succeeds,
an invalid property raises a `ValueError` before the create call, or the
create call itself raises. -/
inductive PeriodOutcome where
  | ok
  | invalidProp
  | createFails
deriving DecidableEq

/-- The period-creation loop of `_create_schedule` (source lines
211–218): `number_of_periods` starts at 0 and is incremented before each
creation, so created periods get indices 1, 2, …; each successful
creation adds one period name to the store; the first failure aborts the
loop with an exception. Returns the updated store and whether every
period was created. -/
def create_periods_loop (sname : String) :
    Nat → List PeriodOutcome → List (String × Nat) → List (String × Nat) × Bool
  | _, [], store => (store, true)
  | n, o :: rest, store =>
    match o with
    | .invalidProp => (store, false)
    | .createFails => (store, false)
    | .ok => create_periods_loop sname (n + 1) rest (store ++ [(sname, n + 1)])

/-- `_delete_periods` (source lines 165–174): delete the period named
with index i = 1, 2, … until a delete reports that the period did not
exist. -/
def delete_periods (sname : String) (i : Nat) (store : List (String × Nat)) :
    List (String × Nat) :=
  if h : (sname, i) ∈ store then delete_periods sname (i + 1) (store.erase (sname, i))
  else store
termination_by store.length
decreasing_by
  have := List.length_erase_of_mem h
  have := List.length_pos.mpr (List.ne_nil_of_mem h)
  omega

/-- `_create_schedule` (source lines 176–227): create the numbered
periods, then the schedule itself (`schedule_ok` says whether
`ConfigAdmin.create_schedule` succeeds); on any failure run
`_delete_periods` before propagating the failure. Returns
(success, final store). -/
def create_schedule (sname : String) (outcomes : List PeriodOutcome)
    (schedule_ok : Bool) (store : List (String × Nat)) :
    Bool × List (String × Nat) :=
  let r := create_periods_loop sname 0 outcomes store
  if r.2 then
    if schedule_ok then (true, r.1)
    else (false, delete_periods sname 1 r.1)
  else (false, delete_periods sname 1 r.1)

/-- The period names with indices i, i+1, …, i+k-1. -/
def period_range (sname : String) (i k : Nat) : List (String × Nat) :=
  match k with
  | 0 => []
  | k + 1 => (sname, i) :: period_range sname (i + 1) k

lemma period_range_succ (sname : String) (i k : Nat) :
    period_range sname i (k + 1) = (sname, i) :: period_range sname (i + 1) k := rfl

lemma create_periods_loop_store (sname : String) :
    ∀ (outcomes : List PeriodOutcome) (n : Nat) (store : List (String × Nat)), ∃ k,
      (create_periods_loop sname n outcomes store).1 =
        store ++ period_range sname (n + 1) k := by
  intro outcomes
  induction outcomes with
  | nil =>
    intro n store
    exact ⟨0, by simp [create_periods_loop, period_range]⟩
  | cons o rest ih =>
    intro n store
    cases o with
    | invalidProp => exact ⟨0, by simp [create_periods_loop, period_range]⟩
    | createFails => exact ⟨0, by simp [create_periods_loop, period_range]⟩
    | ok =>
      obtain ⟨k, hk⟩ := ih (n + 1) (store ++ [(sname, n + 1)])
      refine ⟨k + 1, ?_⟩
      show (create_periods_loop sname (n + 1) rest (store ++ [(sname, n + 1)])).1 = _
      rw [hk, period_range_succ]
      simp

lemma delete_periods_clears (sname : String) :
    ∀ (k i : Nat) (store0 : List (String × Nat)),
      (∀ j, (sname, j) ∉ store0) →
      delete_periods sname i (store0 ++ period_range sname i k) = store0 := by
  intro k
  induction k with
  | zero =>
    intro i store0 h0
    show delete_periods sname i (store0 ++ []) = store0
    rw [List.append_nil]
    rw [delete_periods, dif_neg (h0 i)]
  | succ k ih =>
    intro i store0 h0
    rw [period_range_succ]
    rw [delete_periods, dif_pos (by simp)]
    rw [List.erase_append_right _ (h0 i), List.erase_cons_head]
    exact ih (i + 1) store0 h0

/-- C10: schedule creation is atomic with respect to its periods — if
`_create_schedule` fails after creating some of the numbered periods
(a later period fails to create, or the final `create_schedule` call
fails), then, starting from a store with no periods of this schedule
resource name, `_delete_periods` removes every period that was created,
so the failed creation leaves the store exactly as it was: no orphaned
periods remain. -/
theorem create_schedule_cleanup (sname : String) (outcomes : List PeriodOutcome)
    (schedule_ok : Bool) (store : List (String × Nat))
    (h0 : ∀ j, (sname, j) ∉ store) :
    (create_schedule sname outcomes schedule_ok store).1 = false →
      (create_schedule sname outcomes schedule_ok store).2 = store ∧
      ∀ j, (sname, j) ∉ (create_schedule sname outcomes schedule_ok store).2 := by
  intro hfail
  obtain ⟨k, hk⟩ := create_periods_loop_store sname outcomes 0 store
  have hdel : delete_periods sname 1 (create_periods_loop sname 0 outcomes store).1 = store := by
    rw [hk]
    exact delete_periods_clears sname k 1 store h0
  unfold create_schedule at hfail ⊢
  by_cases hr : (create_periods_loop sname 0 outcomes store).2 = true
  · rw [if_pos hr] at hfail ⊢
    by_cases hs : schedule_ok = true
    · rw [if_pos hs] at hfail
      exact absurd hfail (by simp)
    · rw [if_neg hs]
      refine ⟨hdel, ?_⟩
      intro j
      rw [show (false, delete_periods sname 1
        (create_periods_loop sname 0 outcomes store).1).2 =
          delete_periods sname 1 (create_periods_loop sname 0 outcomes store).1 from rfl, hdel]
      exact h0 j
  · rw [if_neg hr]
    refine ⟨hdel, ?_⟩
    intro j
    rw [show (false, delete_periods sname 1
      (create_periods_loop sname 0 outcomes store).1).2 =
        delete_periods sname 1 (create_periods_loop sname 0 outcomes store).1 from rfl, hdel]
    exact h0 j

/-- Witness for C10: two periods are created, the third fails with an
invalid property, and the clean-up leaves the initially empty store
empty. -/
theorem create_schedule_cleanup_witness :
    (create_schedule "stack-sched" [.ok, .ok, .invalidProp] true []).2 = [] ∧
      ∀ j, ("stack-sched", j) ∉ (create_schedule "stack-sched" [.ok, .ok, .invalidProp] true []).2 :=
  create_schedule_cleanup "stack-sched" [.ok, .ok, .invalidProp] true []
    (fun j => List.not_mem_nil _) (by decide)

/-! ## Dates, datetimes and `Ec2Service._schedule_from_maint_window`

Python `datetime` values are modelled as a calendar date (year, month,
day) plus a clock time. `timedelta` arithmetic on them is calendar
arithmetic: `nextDay` / `prevDay` implement the month/year carries and
minute arithmetic carries whole days. -/

structure Date where
  year : Int
  month : Nat
  day : Nat
deriving DecidableEq

def Date.Valid : Date → Prop
  | ⟨y, m, day⟩ => 1 ≤ m ∧ m ≤ 12 ∧ 1 ≤ day ∧ day ≤ daysInMonth y m

def nextDay : Date → Date
  | ⟨y, m, day⟩ =>
    if day < daysInMonth y m then ⟨y, m, day + 1⟩
    else if m < 12 then ⟨y, m + 1, 1⟩
    else ⟨y + 1, 1, 1⟩

def prevDay : Date → Date
  | ⟨y, m, day⟩ =>
    if 1 < day then ⟨y, m, day - 1⟩
    else if 1 < m then ⟨y, m - 1, daysInMonth y (m - 1)⟩
    else ⟨y - 1, 12, 31⟩

def addDays (d : Date) : Nat → Date
  | 0 => d
  | n + 1 => nextDay (addDays d n)

structure DateTime where
  date : Date
  hour : Nat
  minute : Nat
  second : Nat
deriving DecidableEq

def DateTime.Valid : DateTime → Prop
  | ⟨date, hour, minute, _⟩ => date.Valid ∧ hour ≤ 23 ∧ minute ≤ 59

/-- Minutes since the day's midnight. -/
def DateTime.tod : DateTime → Nat
  | ⟨_, hour, minute, _⟩ => hour * 60 + minute

/-- `start.replace(second=0, microsecond=0)`. -/
def truncate_to_minute : DateTime → DateTime
  | ⟨date, hour, minute, _⟩ => ⟨date, hour, minute, 0⟩

/-- `t + timedelta(minutes=k)` for a whole-minute datetime. -/
def addMinutes : DateTime → Nat → DateTime
  | ⟨date, hour, minute, second⟩, k =>
    ⟨addDays date ((hour * 60 + minute + k) / 1440),
      ((hour * 60 + minute + k) % 1440) / 60,
      (hour * 60 + minute + k) % 1440 % 60, second⟩

/-- `t - timedelta(minutes=k)` for a whole-minute datetime and `k ≤ 1440`
(the synthesizer subtracts at most 10 minutes). -/
def subMinutes : DateTime → Nat → DateTime
  | ⟨date, hour, minute, second⟩, k =>
    if k ≤ hour * 60 + minute then
      ⟨date, (hour * 60 + minute - k) / 60, (hour * 60 + minute - k) % 60, second⟩
    else
      ⟨prevDay date, (1440 + (hour * 60 + minute) - k) / 60,
        (1440 + (hour * 60 + minute) - k) % 60, second⟩

/-- Python `.time()` (seconds are zero on every datetime the synthesizer
builds). -/
def DateTime.time : DateTime → TimeOfDay
  | ⟨_, hour, minute, _⟩ => ⟨hour, minute⟩

/-- `SchedulerConfigBuilder.get_time_from_string` (not under src/) applied
to the constant strings `"23:59"` and `"00:00"` used by the synthesizer. -/
def time_23_59 : TimeOfDay := ⟨23, 59⟩

def time_00_00 : TimeOfDay := ⟨0, 0⟩

/-- `Ec2Service._schedule_from_maint_window` (source lines 204–291).
`end_dt - begin_dt` equals `hours*60 + min(interval, 10)` minutes by
construction (both are offsets of the same `start_dt`), so the source's
`end_dt - begin_dt <= timedelta(hours=24)` test is written as that
inequality. -/
def schedule_from_maint_window (name : String) (start : DateTime)
    (hours interval : Nat) : InstanceSchedule :=
  let start_dt := truncate_to_minute start
  let start_before_begin := min interval 10
  let begin_dt := subMinutes start_dt start_before_begin
  let end_dt := addMinutes start_dt (hours * 60)
  let periods : List (RunningPeriod × Option String) :=
    if begin_dt.date.day = end_dt.date.day then
      [(⟨name ++ "-period", some begin_dt.time, some end_dt.time,
          some [begin_dt.date.day], some [begin_dt.date.month]⟩, none)]
    else if hours * 60 + start_before_begin ≤ 24 * 60 then
      [(⟨name ++ "-period-1", some begin_dt.time, some time_23_59,
          some [begin_dt.date.day], some [begin_dt.date.month]⟩, none),
       (⟨name ++ "-period-2", some time_00_00, some end_dt.time,
          some [end_dt.date.day], some [end_dt.date.month]⟩, none)]
    else
      [(⟨name ++ "-period-1", some begin_dt.time, some time_23_59,
          some [begin_dt.date.day], some [begin_dt.date.month]⟩, none),
       (⟨name ++ "-period-2", none, none,
          some [(prevDay end_dt.date).day], some [(prevDay end_dt.date).month]⟩, none),
       (⟨name ++ "-period-3", some time_00_00, some end_dt.time,
          some [end_dt.date.day], some [end_dt.date.month]⟩, none)]
  ⟨name, "UTC", name ++ " maintenance window", true, periods⟩

/-! Calendar lemmas -/

lemma daysInMonth_bounds (y : Int) (m : Nat) :
    28 ≤ daysInMonth y m ∧ daysInMonth y m ≤ 31 := by
  unfold daysInMonth
  split_ifs <;> omega

lemma nextDay_valid (d : Date) (h : d.Valid) : (nextDay d).Valid := by
  obtain ⟨y, m, day⟩ := d
  obtain ⟨hm1, hm2, hd1, hd2⟩ := h
  have h1 := daysInMonth_bounds y m
  have h2 := daysInMonth_bounds y (m + 1)
  have h3 := daysInMonth_bounds (y + 1) 1
  simp only [nextDay]
  split_ifs <;> exact ⟨by omega, by omega, by omega, by omega⟩

lemma prevDay_valid (d : Date) (h : d.Valid) : (prevDay d).Valid := by
  obtain ⟨y, m, day⟩ := d
  obtain ⟨hm1, hm2, hd1, hd2⟩ := h
  have h1 := daysInMonth_bounds y m
  have h2 := daysInMonth_bounds y (m - 1)
  have h31 : daysInMonth (y - 1) 12 = 31 := rfl
  simp only [prevDay]
  split_ifs <;> exact ⟨by omega, by omega, by omega, by omega⟩

lemma nextDay_prevDay (d : Date) (h : d.Valid) : nextDay (prevDay d) = d := by
  obtain ⟨y, m, day⟩ := d
  obtain ⟨hm1, hm2, hd1, hd2⟩ := h
  have h1 := daysInMonth_bounds y m
  have h2 := daysInMonth_bounds y (m - 1)
  have h31 : daysInMonth (y - 1) 12 = 31 := rfl
  simp only [prevDay]
  split_ifs with c1 c2
  · simp only [nextDay]
    rw [if_pos (show day - 1 < daysInMonth y m by omega)]
    congr 1
    omega
  · simp only [nextDay]
    rw [if_neg (show ¬(daysInMonth y (m - 1) < daysInMonth y (m - 1)) by omega)]
    rw [if_pos (show m - 1 < 12 by omega)]
    congr 1
    · omega
    · omega
  · simp only [nextDay]
    rw [if_neg (show ¬((31 : Nat) < daysInMonth (y - 1) 12) by omega)]
    rw [if_neg (show ¬((12 : Nat) < 12) by omega)]
    congr 1
    · omega
    · omega
    · omega

lemma nextDay_day_ne (d : Date) (h : d.Valid) : (nextDay d).day ≠ d.day := by
  obtain ⟨y, m, day⟩ := d
  obtain ⟨hm1, hm2, hd1, hd2⟩ := h
  have h1 := daysInMonth_bounds y m
  simp only [nextDay]
  split_ifs <;> dsimp only <;> omega

lemma nextDay_nextDay_day_ne (d : Date) (h : d.Valid) :
    (nextDay (nextDay d)).day ≠ d.day := by
  obtain ⟨y, m, day⟩ := d
  obtain ⟨hm1, hm2, hd1, hd2⟩ := h
  have h1 := daysInMonth_bounds y m
  have h2 := daysInMonth_bounds y (m + 1)
  have h3 := daysInMonth_bounds (y + 1) 1
  simp only [nextDay]
  split_ifs <;> first
  | omega
  | (dsimp only at *; omega)

lemma addDays_comm (d : Date) : ∀ n : Nat, nextDay (addDays d n) = addDays (nextDay d) n := by
  intro n
  induction n with
  | zero => rfl
  | succ n ih =>
    show nextDay (nextDay (addDays d n)) = nextDay (addDays (nextDay d) n)
    rw [ih]

/-- Description of `addDays d q` for q ≤ 27: either the month was not
left and the day advanced by q, or exactly one month boundary was crossed
(months have at least 28 days, so a span of at most 27 days cannot cross
two) and the day is q − r where r was the number of days left in d's
month. -/
lemma addDays_day_spec (d : Date) (h : d.Valid) :
    ∀ q : Nat, q ≤ 27 →
      (addDays d q = ⟨d.year, d.month, d.day + q⟩ ∧
        d.day + q ≤ daysInMonth d.year d.month) ∨
      (∃ r, r < q ∧ (addDays d q).day = q - r ∧
        d.day = daysInMonth d.year d.month - r) := by
  obtain ⟨y, m, day⟩ := d
  obtain ⟨hm1, hm2, hd1, hd2⟩ := h
  dsimp only
  intro q
  induction q with
  | zero =>
    intro _
    left
    exact ⟨rfl, by omega⟩
  | succ q ih =>
    intro hq27
    rcases ih (by omega) with ⟨hA, hAle⟩ | ⟨r, hr, hBday, hBstart⟩
    · by_cases hlt : day + q < daysInMonth y m
      · left
        constructor
        · show nextDay (addDays ⟨y, m, day⟩ q) = _
          rw [hA]
          simp only [nextDay]
          rw [if_pos hlt]
          congr 1
        · omega
      · right
        refine ⟨q, by omega, ?_, by omega⟩
        show (nextDay (addDays ⟨y, m, day⟩ q)).day = q + 1 - q
        rw [hA]
        simp only [nextDay]
        rw [if_neg hlt]
        split_ifs <;> dsimp only <;> omega
    · rcases hE : addDays ⟨y, m, day⟩ q with ⟨Dy, Dm, Dday⟩
      rw [hE] at hBday
      dsimp only at hBday
      right
      refine ⟨r, by omega, ?_, hBstart⟩
      show (nextDay (addDays ⟨y, m, day⟩ q)).day = q + 1 - r
      rw [hE]
      have hbnd := daysInMonth_bounds Dy Dm
      simp only [nextDay]
      rw [if_pos (show Dday < daysInMonth Dy Dm by omega)]
      dsimp only
      omega

/-- Adding between 1 and 27 days always changes the day-of-month (months
have at least 28 days). A span of 28 days can keep it: 28 days from any
day of a non-leap February land on the same day-of-month in March. -/
lemma addDays_day_ne (d : Date) (h : d.Valid) (q : Nat)
    (h1 : 1 ≤ q) (h27 : q ≤ 27) : (addDays d q).day ≠ d.day := by
  rcases addDays_day_spec d h q h27 with ⟨hA, hAle⟩ | ⟨r, hr, hBday, hBstart⟩
  · rw [hA]
    dsimp only
    omega
  · rw [hBday]
    have hb := daysInMonth_bounds d.year d.month
    omega

instance : (d : Date) → Decidable d.Valid
  | ⟨y, m, day⟩ =>
    inferInstanceAs (Decidable (1 ≤ m ∧ m ≤ 12 ∧ 1 ≤ day ∧ day ≤ daysInMonth y m))

instance : (t : DateTime) → Decidable t.Valid
  | ⟨d, hh, mm, _⟩ => inferInstanceAs (Decidable (d.Valid ∧ hh ≤ 23 ∧ mm ≤ 59))

lemma DateTime.valid_iff (t : DateTime) :
    t.Valid ↔ t.date.Valid ∧ t.hour ≤ 23 ∧ t.minute ≤ 59 := by
  obtain ⟨d, hh, mm, s⟩ := t
  exact Iff.rfl

lemma truncate_valid (t : DateTime) (h : t.Valid) : (truncate_to_minute t).Valid := by
  obtain ⟨d, hh, mm, s⟩ := t
  exact h

lemma addMinutes_date (t : DateTime) (k : Nat) :
    (addMinutes t k).date = addDays t.date ((t.tod + k) / 1440) := by
  obtain ⟨d, hh, mm, s⟩ := t
  rfl

lemma tod_le (t : DateTime) (h : t.Valid) : t.tod ≤ 1439 := by
  obtain ⟨d, hh, mm, s⟩ := t
  obtain ⟨-, h1, h2⟩ := h
  show hh * 60 + mm ≤ 1439
  omega

lemma subMinutes_valid (t : DateTime) (k : Nat) (h : t.Valid) (hk : k ≤ 1440) :
    (subMinutes t k).Valid := by
  obtain ⟨d, hh, mm, s⟩ := t
  obtain ⟨hd, h1, h2⟩ := h
  simp only [subMinutes]
  split_ifs with c
  · exact ⟨hd, by omega, by omega⟩
  · exact ⟨prevDay_valid d hd, by omega, by omega⟩

lemma addMinutes_subMinutes (t : DateTime) (k m : Nat) (h : t.Valid) (hk : k ≤ 1440) :
    addMinutes (subMinutes t k) (m + k) = addMinutes t m := by
  obtain ⟨d, hh, mm, s⟩ := t
  obtain ⟨hd, h1, h2⟩ := h
  simp only [subMinutes]
  split_ifs with c
  · simp only [addMinutes]
    rw [show (hh * 60 + mm - k) / 60 * 60 + (hh * 60 + mm - k) % 60 + (m + k)
        = hh * 60 + mm + m from by omega]
  · simp only [addMinutes]
    rw [show (1440 + (hh * 60 + mm) - k) / 60 * 60 + (1440 + (hh * 60 + mm) - k) % 60 + (m + k)
        = 1440 + (hh * 60 + mm + m) from by omega]
    rw [show (1440 + (hh * 60 + mm + m)) / 1440 = (hh * 60 + mm + m) / 1440 + 1 from by omega]
    rw [show (1440 + (hh * 60 + mm + m)) % 1440 = (hh * 60 + mm + m) % 1440 from by omega]
    congr 1
    show nextDay (addDays (prevDay d) ((hh * 60 + mm + m) / 1440)) =
      addDays d ((hh * 60 + mm + m) / 1440)
    rw [addDays_comm, nextDay_prevDay d hd]

lemma sfmw_fields (name : String) (start : DateTime) (hours interval : Nat) :
    (schedule_from_maint_window name start hours interval).name = name ∧
    (schedule_from_maint_window name start hours interval).timezone = "UTC" ∧
    (schedule_from_maint_window name start hours interval).enforced = true :=
  ⟨rfl, rfl, rfl⟩

lemma sfmw_periods (name : String) (start : DateTime) (hours interval : Nat) :
    (schedule_from_maint_window name start hours interval).periods =
      (let begin_dt := subMinutes (truncate_to_minute start) (min interval 10)
       let end_dt := addMinutes (truncate_to_minute start) (hours * 60)
       if begin_dt.date.day = end_dt.date.day then
        [(⟨name ++ "-period", some begin_dt.time, some end_dt.time,
            some [begin_dt.date.day], some [begin_dt.date.month]⟩, none)]
       else if hours * 60 + min interval 10 ≤ 24 * 60 then
        [(⟨name ++ "-period-1", some begin_dt.time, some time_23_59,
            some [begin_dt.date.day], some [begin_dt.date.month]⟩, none),
         (⟨name ++ "-period-2", some time_00_00, some end_dt.time,
            some [end_dt.date.day], some [end_dt.date.month]⟩, none)]
       else
        [(⟨name ++ "-period-1", some begin_dt.time, some time_23_59,
            some [begin_dt.date.day], some [begin_dt.date.month]⟩, none),
         (⟨name ++ "-period-2", none, none,
            some [(prevDay end_dt.date).day], some [(prevDay end_dt.date).month]⟩, none),
         (⟨name ++ "-period-3", some time_00_00, some end_dt.time,
            some [end_dt.date.day], some [end_dt.date.month]⟩, none)]) := rfl

/-- C1, amended with the hypothesis that the end falls fewer than 28
calendar days after the lead-start (`b.tod + hours*60 + min(interval,10)
< 28*1440`; implied for every start time by `durationHours ≤ 647`, and
tight — see the counterexample for 28-day spans): the synthesized
schedule carries the window name,
timezone UTC and the enforced flag, its lead-start `b` is the start
truncated to the minute minus `min(interval, 10)` minutes, its end `e`
is the truncated start plus `hours` hours, and its periods are: one
period `[b.time, e.time]` on b's day/month when b and e fall on the same
calendar date; the two periods `[b.time, 23:59]` on b's date and
`[00:00, e.time]` on e's date when e falls on the calendar day after b
and `e - b ≤ 24` hours; and otherwise those two periods plus a full-day
period on the day immediately before e's date, each period named from
the window name and its sequence index. -/
theorem maint_window_schedule_spec (name : String) (start : DateTime)
    (hours interval : Nat) (b e : DateTime)
    (hv : start.Valid)
    (hb : b = subMinutes (truncate_to_minute start) (min interval 10))
    (he : e = addMinutes (truncate_to_minute start) (hours * 60))
    (hspan : b.tod + (hours * 60 + min interval 10) < 28 * 1440) :
    (schedule_from_maint_window name start hours interval).name = name ∧
    (schedule_from_maint_window name start hours interval).timezone = "UTC" ∧
    (schedule_from_maint_window name start hours interval).enforced = true ∧
    (b.date = e.date →
      (schedule_from_maint_window name start hours interval).periods =
        [(⟨name ++ "-period", some b.time, some e.time,
            some [b.date.day], some [b.date.month]⟩, none)]) ∧
    (e.date = nextDay b.date ∧ hours * 60 + min interval 10 ≤ 24 * 60 →
      (schedule_from_maint_window name start hours interval).periods =
        [(⟨name ++ "-period-1", some b.time, some time_23_59,
            some [b.date.day], some [b.date.month]⟩, none),
         (⟨name ++ "-period-2", some time_00_00, some e.time,
            some [e.date.day], some [e.date.month]⟩, none)]) ∧
    (¬(b.date = e.date) ∧ ¬(e.date = nextDay b.date ∧ hours * 60 + min interval 10 ≤ 24 * 60) →
      (schedule_from_maint_window name start hours interval).periods =
        [(⟨name ++ "-period-1", some b.time, some time_23_59,
            some [b.date.day], some [b.date.month]⟩, none),
         (⟨name ++ "-period-2", none, none,
            some [(prevDay e.date).day], some [(prevDay e.date).month]⟩, none),
         (⟨name ++ "-period-3", some time_00_00, some e.time,
            some [e.date.day], some [e.date.month]⟩, none)]) := by
  have hlead : min interval 10 ≤ 1440 := by
    have := min_le_right interval 10
    omega
  have hstv : (truncate_to_minute start).Valid := truncate_valid start hv
  have hbv : b.Valid := hb ▸ subMinutes_valid _ _ hstv hlead
  have hbd : b.date.Valid := ((DateTime.valid_iff b).mp hbv).1
  have hetod : e = addMinutes b (hours * 60 + min interval 10) := by
    rw [hb, he, addMinutes_subMinutes (truncate_to_minute start) (min interval 10)
      (hours * 60) hstv hlead]
  have hedate : e.date = addDays b.date ((b.tod + (hours * 60 + min interval 10)) / 1440) := by
    rw [hetod, addMinutes_date]
  have hbtod : b.tod ≤ 1439 := tod_le b hbv
  have hminle : min interval 10 ≤ 10 := min_le_right interval 10
  have hps := sfmw_periods name start hours interval
  rw [← hb, ← he] at hps
  refine ⟨(sfmw_fields name start hours interval).1,
    (sfmw_fields name start hours interval).2.1,
    (sfmw_fields name start hours interval).2.2, ?_, ?_, ?_⟩
  · intro hbe
    have hday : b.date.day = e.date.day := by rw [hbe]
    rw [hps]
    show (if b.date.day = e.date.day then _ else _) = _
    rw [if_pos hday]
  · rintro ⟨h2a, h2b⟩
    have hdne : ¬(b.date.day = e.date.day) := by
      rw [h2a]
      exact fun hcon => nextDay_day_ne b.date hbd hcon.symm
    rw [hps]
    show (if b.date.day = e.date.day then _ else _) = _
    rw [if_neg hdne, if_pos h2b]
  · rintro ⟨h3a, h3b⟩
    have hq27 : (b.tod + (hours * 60 + min interval 10)) / 1440 ≤ 27 := by omega
    by_cases hq0 : (b.tod + (hours * 60 + min interval 10)) / 1440 = 0
    · exact absurd (by rw [hedate, hq0] : e.date = addDays b.date 0).symm h3a
    · by_cases hq1 : (b.tod + (hours * 60 + min interval 10)) / 1440 = 1
      · have hnd : e.date = nextDay b.date := by
          rw [hedate, hq1]
          rfl
        have hdiff : ¬(hours * 60 + min interval 10 ≤ 24 * 60) := by
          by_contra hdiff
          exact h3b ⟨hnd, hdiff⟩
        have hdne : ¬(b.date.day = e.date.day) := by
          rw [hnd]
          exact fun hcon => nextDay_day_ne b.date hbd hcon.symm
        rw [hps]
        show (if b.date.day = e.date.day then _ else _) = _
        rw [if_neg hdne, if_neg hdiff]
      · have hdne : ¬(b.date.day = e.date.day) := by
          rw [hedate]
          exact fun hcon => addDays_day_ne b.date hbd _ (by omega) hq27 hcon.symm
        have hdiff : ¬(hours * 60 + min interval 10 ≤ 24 * 60) := by omega
        rw [hps]
        show (if b.date.day = e.date.day then _ else _) = _
        rw [if_neg hdne, if_neg hdiff]

/-- Witness for C1 at the spec's own example: a window starting
2021-03-15 23:30 with a 2-hour duration and a 10-minute lead yields
exactly the two periods [23:20, 23:59] on March 15 and [00:00, 01:30]
on March 16. -/
theorem maint_window_schedule_spec_witness :
    (schedule_from_maint_window "mw" ⟨⟨2021, 3, 15⟩, 23, 30, 0⟩ 2 10).periods =
      [(⟨"mw-period-1", some ⟨23, 20⟩, some ⟨23, 59⟩, some [15], some [3]⟩, none),
       (⟨"mw-period-2", some ⟨0, 0⟩, some ⟨1, 30⟩, some [16], some [3]⟩, none)] :=
  ((maint_window_schedule_spec "mw" ⟨⟨2021, 3, 15⟩, 23, 30, 0⟩ 2 10
      (subMinutes (truncate_to_minute ⟨⟨2021, 3, 15⟩, 23, 30, 0⟩) (min 10 10))
      (addMinutes (truncate_to_minute ⟨⟨2021, 3, 15⟩, 23, 30, 0⟩) (2 * 60))
      (by decide) rfl rfl (by decide)).2.2.2.2.1
    ⟨by decide, by decide⟩).trans (by decide)

/-- Counterexample to C1 as stated: the source compares only the
day-of-month (`begin_dt.day == end_dt.day`), not the calendar date, so a
window whose end lands 28 or more days later on the same day-of-month
yields one period where the claim requires three. Two instances: a
744-hour (31-day) window starting 2021-01-01 10:00 (lead-start
2021-01-01 09:50, end 2021-02-01 10:00, day-of-month 1 = 1), and — the
shortest possible duration — a 671-hour window starting 2021-02-10 01:00
(lead-start 2021-02-10 00:50, end 2021-03-10 23:50, exactly 28 calendar
days across a 28-day February, day-of-month 10 = 10). Both ends are more
than 24 hours after the lead-start on a different calendar day. -/
theorem maint_window_day_of_month_counterexample :
    (schedule_from_maint_window "mw" ⟨⟨2021, 1, 1⟩, 10, 0, 0⟩ 744 10).periods.length = 1 ∧
    (subMinutes (truncate_to_minute ⟨⟨2021, 1, 1⟩, 10, 0, 0⟩) (min 10 10)).date =
      ⟨2021, 1, 1⟩ ∧
    (addMinutes (truncate_to_minute ⟨⟨2021, 1, 1⟩, 10, 0, 0⟩) (744 * 60)).date =
      ⟨2021, 2, 1⟩ ∧
    ¬(744 * 60 + min 10 10 ≤ 24 * 60) ∧
    (schedule_from_maint_window "mw" ⟨⟨2021, 2, 10⟩, 1, 0, 0⟩ 671 10).periods.length = 1 ∧
    (subMinutes (truncate_to_minute ⟨⟨2021, 2, 10⟩, 1, 0, 0⟩) (min 10 10)).date =
      ⟨2021, 2, 10⟩ ∧
    (addMinutes (truncate_to_minute ⟨⟨2021, 2, 10⟩, 1, 0, 0⟩) (671 * 60)).date =
      ⟨2021, 3, 10⟩ ∧
    ¬(671 * 60 + min 10 10 ≤ 24 * 60) := by
  refine ⟨?_, ?_, ?_, ?_, ?_, ?_, ?_, ?_⟩ <;> decide

end InstanceScheduler
